import Mathlib

/-!
# Trace request reconstruction and signature verification (nibiru)

A shallow embedding of

* `eth/rpc/rpcapi/tracing.go`: `Backend.TraceTransaction`, `Backend.TraceBlock`,
  `Backend.TraceCall`;
* `app/evmante/evmante_sigverify.go`: `EthSigVerificationDecorator.AnteHandle`;
* `app/evmante/evmante_setup_ctx.go`: `EthSetupContextDecorator.AnteHandle`.

Collaborators that live outside these files (block store, transaction index,
envelope codec, consensus parameter source, replay engine, signer recovery) are
fields of a record of functions.  Every call to a stateful collaborator is
recorded, in program order, in the `calls` log of a run, so that statements such
as "the replay engine is never queried" are statements about that log.  Logger
calls are not recorded.  A Go run-time panic (index or slice bound out of range)
is the outcome `Outcome.panic`.
-/

set_option autoImplicit false

namespace Nibiru

/-! ## Data model -/

/-- Raw bytes (`[]byte`, `types.Tx`). -/
abbrev Bytes := List Nat

/-- A 32-byte Ethereum hash (`gethcommon.Hash`), kept abstract as bytes. -/
abbrev Hash := List Nat

/-- The message `evm.MsgEthereumTx`: packed transaction data, the cached hash
and the mutable `From` field. -/
structure MsgEthereumTx where
  Data : Bytes
  Hash : String
  From : String
deriving DecidableEq, Repr

/-- A message of an envelope (`sdk.Msg`): the dynamic type is either
`*evm.MsgEthereumTx` or any other message type (named by its type URL). -/
inductive Msg where
  | eth (m : MsgEthereumTx)
  | other (typeURL : String)
deriving DecidableEq, Repr

/-- A decoded envelope (`sdk.Tx`); `GetMsgs` is the ordered message list. -/
structure Tx where
  GetMsgs : List Msg
deriving DecidableEq, Repr

/-- The tracer configuration `evm.TraceConfig` (only the fields that identify it). -/
structure TraceConfig where
  Tracer : String
  Timeout : String
deriving DecidableEq, Repr

/-- The committed block (`tmtypes.Block`, header fields flattened). -/
structure Block where
  Height : Int
  Time : Nat
  ProposerAddress : Bytes
  Txs : List Bytes
deriving DecidableEq, Repr

/-- The value `tmrpctypes.ResultBlock`; `BlockIDHash` is `BlockID.Hash`. -/
structure ResultBlock where
  BlockIDHash : Bytes
  Block : Block
deriving DecidableEq, Repr

/-- The located transaction (`eth.TxResult`): `Height` is an `int64`, `TxIndex`
and `MsgIndex` are `uint32`. -/
structure TxResult where
  Height : Int
  TxIndex : Nat
  MsgIndex : Nat
deriving DecidableEq, Repr

/-- The request `evm.QueryTraceTxRequest`. -/
structure QueryTraceTxRequest where
  Msg : MsgEthereumTx
  TraceConfig : Option TraceConfig
  Predecessors : List MsgEthereumTx
  BlockNumber : Int
  BlockHash : Bytes
  BlockTime : Nat
  ProposerAddress : Bytes
  ChainId : Int
  BlockMaxGas : Int
deriving DecidableEq, Repr

/-- The request `evm.QueryTraceBlockRequest`.  The message type has no
predecessor field. -/
structure QueryTraceBlockRequest where
  Txs : List MsgEthereumTx
  TraceConfig : Option TraceConfig
  BlockNumber : Int
  BlockHash : Bytes
  BlockTime : Nat
  ProposerAddress : Bytes
  ChainId : Int
  BlockMaxGas : Int
deriving DecidableEq, Repr

/-- One decoded entry of a block trace (`evm.TxTraceResult`). -/
structure TxTraceResult where
  Result : String
  Error : String
deriving DecidableEq, Repr

/-- Errors returned by the tracing backend. -/
inductive Err where
  /-- an error returned by a collaborator, passed on unchanged -/
  | upstream (msg : String)
  /-- Source `pkgerrors.New("genesis is not traceable")` -/
  | genesisNotTraceable
  /-- Source `fmt.Errorf("tx count %d is overflowing", len)` -/
  | txCountOverflowing (count : Nat)
  /-- Source `fmt.Errorf("transaction not included in block %v", height)` -/
  | txNotIncludedInBlock (height : Int)
  /-- Source `fmt.Errorf("invalid transaction type %T", tx)` -/
  | invalidTransactionType
  /-- Source `pkgerrors.New("invalid rpc client")` -/
  | invalidRpcClient
deriving DecidableEq, Repr

/-- How a Go function call ends: a value, a returned error, or a run-time panic. -/
inductive Outcome (α : Type) where
  | ok (a : α)
  | error (e : Err)
  | panic (msg : String)
deriving DecidableEq, Repr

/-- A call to a stateful collaborator of the backend. -/
inductive Call where
  | GetTxByEthHash (hash : Hash)
  | TendermintBlockByNumber (height : Int)
  | ConsensusParams (height : Int)
  | TraceTx (ctxHeight : Int) (req : QueryTraceTxRequest)
  | TraceBlock (ctxHeight : Int) (req : QueryTraceBlockRequest)
  | TraceCall (ctxHeight : Int) (req : QueryTraceTxRequest)
deriving DecidableEq, Repr

/-- A run of a backend method: the collaborator calls it made, in order, and
how it ended. -/
structure Run (α : Type) where
  calls : List Call
  out : Outcome α
deriving DecidableEq, Repr

/-- Return a value without calling anything. -/
def Run.pure {α : Type} (a : α) : Run α := ⟨[], .ok a⟩

/-- Return an error. -/
def Run.fail {α : Type} (e : Err) : Run α := ⟨[], .error e⟩

/-- Abort with a run-time panic. -/
def Run.abort {α : Type} (msg : String) : Run α := ⟨[], .panic msg⟩

/-- Sequencing: the rest of the function runs only after a value. -/
def Run.bind {α β : Type} (x : Run α) (f : α → Run β) : Run β :=
  match x.out with
  | .ok a => ⟨x.calls ++ (f a).calls, (f a).out⟩
  | .error e => ⟨x.calls, .error e⟩
  | .panic m => ⟨x.calls, .panic m⟩

/-- A recorded call to a collaborator that answers `r`; an error answer is
returned to the caller (`if err != nil { return nil, err }`). -/
def Run.call {α : Type} (c : Call) (r : Except Err α) : Run α :=
  match r with
  | .ok a => ⟨[c], .ok a⟩
  | .error e => ⟨[c], .error e⟩

instance : Monad Run where
  pure := Run.pure
  bind := Run.bind

/-- The calls of a run that go to the replay engine. -/
def Call.isEngine : Call → Bool
  | .TraceTx _ _ => true
  | .TraceBlock _ _ => true
  | .TraceCall _ _ => true
  | _ => false

/-- The calls of a run that fetch a block from the block store. -/
def Call.isBlockStore : Call → Bool
  | .TendermintBlockByNumber _ => true
  | _ => false

/-! ## Machine integers -/

/-- The constant `math.MaxUint32`. -/
def MaxUint32 : Nat := 4294967295

/-- Two's complement wrap of a mathematical integer to `int64`. -/
def wrapInt64 (z : Int) : Int := (z + 2 ^ 63) % 2 ^ 64 - 2 ^ 63

/-- The conversion `uint32(n)` of a non-negative `int`. -/
def toUint32 (n : Nat) : Nat := n % 2 ^ 32

/-! ## The backend -/

/-- The receiver `*Backend` with the collaborators used by the tracing methods. -/
structure Backend where
  /-- Source `b.GetTxByEthHash`: the transaction index. -/
  GetTxByEthHash : Hash → Except Err TxResult
  /-- Source `b.TendermintBlockByNumber`: the block store. -/
  TendermintBlockByNumber : Int → Except Err ResultBlock
  /-- Source `b.clientCtx.TxConfig.TxDecoder()`: the envelope codec, a pure function. -/
  TxDecoder : Bytes → Except Err Tx
  /-- whether `b.clientCtx.Client` implements `cmtrpcclient.NetworkClient` -/
  isNetworkClient : Bool
  /-- Source `nc.ConsensusParams(b.ctx, &height)`, projected to `ConsensusParams.Block.MaxGas` -/
  ConsensusParams : Int → Except Err Int
  /-- Source `b.chainID`, a `*big.Int` -/
  chainID : Int
  /-- Source `b.queryClient.TraceTx`; the first argument is the height carried by the context -/
  TraceTx : Int → QueryTraceTxRequest → Except Err Bytes
  /-- Source `b.queryClient.TraceBlock` -/
  TraceBlock : Int → QueryTraceBlockRequest → Except Err Bytes
  /-- Source `b.queryClient.TraceCall` -/
  TraceCall : Int → QueryTraceTxRequest → Except Err Bytes
  /-- Source `rpc.BlockNumber.Int64`, the conversion of a block number to `int64`;
  it is declared in package `rpc`, outside the embedded files, and kept as a parameter -/
  BlockNumberInt64 : Int → Int
  /-- Source `json.Unmarshal` into a `json.RawMessage` -/
  unmarshalRaw : Bytes → Except Err Bytes
  /-- Source `json.Unmarshal` into a `[]*evm.TxTraceResult`: the slice is reset and one
  element is appended per element of the JSON array (`null` gives a nil pointer) -/
  unmarshalResults : Bytes → Except Err (List (Option TxTraceResult))

/-! ## `TraceTransaction` -/

/-- The inner loop `for _, msg := range tx.GetMsgs()` (tracing.go 60-67 and
163-170): append every message whose dynamic type is `*evm.MsgEthereumTx`. -/
def appendEthMsgs (acc : List MsgEthereumTx) (msgs : List Msg) : List MsgEthereumTx :=
  msgs.foldl (fun acc msg =>
    match msg with
    | .eth ethMsg => acc ++ [ethMsg]
    | .other _ => acc) acc

/-- The outer loop `for _, txBz := range txs` (tracing.go 54-68 and 156-171):
decode each envelope, `continue` on a decode error, otherwise run the inner loop. -/
def appendBlockEthMsgs (txDecoder : Bytes → Except Err Tx)
    (acc : List MsgEthereumTx) (txs : List Bytes) : List MsgEthereumTx :=
  txs.foldl (fun acc txBz =>
    match txDecoder txBz with
    | .error _ => acc
    | .ok tx => appendEthMsgs acc tx.GetMsgs) acc

/-- The method `Backend.TraceTransaction` (tracing.go 21-136). -/
def TraceTransaction (b : Backend) (hash : Hash) (config : Option TraceConfig) :
    Run Bytes := do
  let transaction ← Run.call (.GetTxByEthHash hash) (b.GetTxByEthHash hash)
  if transaction.Height = 0 then Run.fail .genesisNotTraceable else
  let blk ← Run.call (.TendermintBlockByNumber transaction.Height)
    (b.TendermintBlockByNumber transaction.Height)
  if blk.Block.Txs.length > MaxUint32 then
    Run.fail (.txCountOverflowing blk.Block.Txs.length) else
  let txsLen := toUint32 blk.Block.Txs.length
  if txsLen < transaction.TxIndex then
    Run.fail (.txNotIncludedInBlock blk.Block.Height) else
  -- `blk.Block.Txs[:transaction.TxIndex]`
  if blk.Block.Txs.length < transaction.TxIndex then
    Run.abort "slice bounds out of range" else
  let predecessors := appendBlockEthMsgs b.TxDecoder []
    (blk.Block.Txs.take transaction.TxIndex)
  -- `blk.Block.Txs[transaction.TxIndex]`
  match blk.Block.Txs[transaction.TxIndex]? with
  | none => Run.abort "index out of range"
  | some txBz =>
  match b.TxDecoder txBz with
  | .error e => Run.fail e
  | .ok tx =>
  -- `tx.GetMsgs()[:int(transaction.MsgIndex)]`; the slice that `GetMsgs` returns has
  -- capacity equal to its length
  if tx.GetMsgs.length < transaction.MsgIndex then
    Run.abort "slice bounds out of range" else
  let predecessors := appendEthMsgs predecessors (tx.GetMsgs.take transaction.MsgIndex)
  -- `tx.GetMsgs()[transaction.MsgIndex]`
  match tx.GetMsgs[transaction.MsgIndex]? with
  | none => Run.abort "index out of range"
  | some (.other _) => Run.fail .invalidTransactionType
  | some (.eth ethMessage) =>
  if !b.isNetworkClient then Run.fail .invalidRpcClient else
  let maxGas ← Run.call (.ConsensusParams blk.Block.Height)
    (b.ConsensusParams blk.Block.Height)
  let traceTxRequest : QueryTraceTxRequest :=
    { Msg := ethMessage
      TraceConfig := none
      Predecessors := predecessors
      BlockNumber := blk.Block.Height
      BlockTime := blk.Block.Time
      BlockHash := blk.BlockIDHash
      ProposerAddress := blk.Block.ProposerAddress
      ChainId := wrapInt64 b.chainID
      BlockMaxGas := maxGas }
  let traceTxRequest :=
    if config.isSome then { traceTxRequest with TraceConfig := config } else traceTxRequest
  let ctxHeight := max (wrapInt64 (transaction.Height - 1)) 1
  let traceResult ← Run.call (.TraceTx ctxHeight traceTxRequest)
    (b.TraceTx ctxHeight traceTxRequest)
  match b.unmarshalRaw traceResult with
  | .error e => Run.fail e
  | .ok res => Run.pure res

/-! ## `TraceBlock` and `TraceCall` -/

/-- The method `Backend.TraceBlock` (tracing.go 141-209).  `height` is an
`rpc.BlockNumber`, an `int64`. -/
def TraceBlock (b : Backend) (height : Int) (config : Option TraceConfig)
    (block : ResultBlock) : Run (List (Option TxTraceResult)) := do
  let txs := block.Block.Txs
  let txsLength := txs.length
  if txsLength = 0 then Run.pure [] else
  let txsMessages := appendBlockEthMsgs b.TxDecoder [] txs
  let contextHeight := max (wrapInt64 (height - 1)) 1
  if !b.isNetworkClient then Run.fail .invalidRpcClient else
  let maxGas ← Run.call (.ConsensusParams block.Block.Height)
    (b.ConsensusParams block.Block.Height)
  let traceBlockRequest : QueryTraceBlockRequest :=
    { Txs := txsMessages
      TraceConfig := config
      BlockNumber := block.Block.Height
      BlockTime := block.Block.Time
      BlockHash := block.BlockIDHash
      ProposerAddress := block.Block.ProposerAddress
      ChainId := wrapInt64 b.chainID
      BlockMaxGas := maxGas }
  let res ← Run.call (.TraceBlock contextHeight traceBlockRequest)
    (b.TraceBlock contextHeight traceBlockRequest)
  -- `decodedResults := make([]*evm.TxTraceResult, txsLength)` is overwritten by
  -- `json.Unmarshal(res.Data, &decodedResults)`
  match b.unmarshalResults res with
  | .error e => Run.fail e
  | .ok decodedResults => Run.pure decodedResults

/-- The call arguments `evm.JsonTxArgs`, represented by the message that
`ToMsgEthTx` builds from them. -/
structure JsonTxArgs where
  ToMsgEthTx : MsgEthereumTx
deriving DecidableEq, Repr

/-- The method `Backend.TraceCall` (tracing.go 216-259).  `contextBlock` is an
`rpc.BlockNumber`. -/
def TraceCall (b : Backend) (txArgs : JsonTxArgs) (contextBlock : Int)
    (config : Option TraceConfig) : Run Bytes := do
  let blk ← Run.call (.TendermintBlockByNumber contextBlock)
    (b.TendermintBlockByNumber contextBlock)
  if !b.isNetworkClient then Run.fail .invalidRpcClient else
  let maxGas ← Run.call (.ConsensusParams blk.Block.Height)
    (b.ConsensusParams blk.Block.Height)
  let traceTxRequest : QueryTraceTxRequest :=
    { Msg := txArgs.ToMsgEthTx
      TraceConfig := none
      Predecessors := []
      BlockNumber := blk.Block.Height
      BlockTime := blk.Block.Time
      BlockHash := blk.BlockIDHash
      ProposerAddress := blk.Block.ProposerAddress
      ChainId := wrapInt64 b.chainID
      BlockMaxGas := maxGas }
  let traceTxRequest :=
    if config.isSome then { traceTxRequest with TraceConfig := config } else traceTxRequest
  let ctxHeight := b.BlockNumberInt64 contextBlock
  let traceResp ← Run.call (.TraceCall ctxHeight traceTxRequest)
    (b.TraceCall ctxHeight traceTxRequest)
  match b.unmarshalRaw traceResp with
  | .error e => Run.fail e
  | .ok traceResult => Run.pure traceResult

/-- The snapshot height rule of the specification: `resolve(H) = max(H-1, 1)`. -/
def resolve (H : Int) : Int := max (H - 1) 1

/-- The replay-engine calls of a run, in order. -/
def Run.engineCalls {α : Type} (r : Run α) : List Call := r.calls.filter Call.isEngine

/-! ### The predecessor list in the words of the specification -/

/-- The Ethereum-style message at position `k` of a message list, if any. -/
def ethMsgAt (msgs : List Msg) (k : Nat) : List MsgEthereumTx :=
  match msgs[k]? with
  | some (.eth m) => [m]
  | _ => []

/-- The Ethereum-style messages at positions `[0, j)` of a message list, in order. -/
def ethMsgsBefore (msgs : List Msg) (j : Nat) : List MsgEthereumTx :=
  (List.range j).flatMap (ethMsgAt msgs)

/-- The Ethereum-style messages of the envelope at block position `k`; nothing
when the position is empty or the envelope does not decode. -/
def envelopeEthMsgs (txDecoder : Bytes → Except Err Tx) (txs : List Bytes) (k : Nat) :
    List MsgEthereumTx :=
  match txs[k]? with
  | none => []
  | some txBz =>
    match txDecoder txBz with
    | .error _ => []
    | .ok tx => ethMsgsBefore tx.GetMsgs tx.GetMsgs.length

/-- The predecessor list of the specification for block position `i`, message
position `j`: envelopes at `[0, i)`, then messages `[0, j)` of the target. -/
def specPredecessors (txDecoder : Bytes → Except Err Tx) (txs : List Bytes)
    (i j : Nat) (target : Tx) : List MsgEthereumTx :=
  (List.range i).flatMap (envelopeEthMsgs txDecoder txs) ++ ethMsgsBefore target.GetMsgs j

/-- The payload list of the specification for a whole block. -/
def specBlockPayloads (txDecoder : Bytes → Except Err Tx) (txs : List Bytes) :
    List MsgEthereumTx :=
  (List.range txs.length).flatMap (envelopeEthMsgs txDecoder txs)

/-! ### An example block: `[A (Ethereum), B (native), C (Ethereum)]` -/

/-- Payload `A`. -/
def msgA : MsgEthereumTx := ⟨[1], "0xa", ""⟩
/-- Payload `C`. -/
def msgC : MsgEthereumTx := ⟨[3], "0xc", ""⟩

/-- The example codec: `[1]`, `[2]`, `[3]` decode to the envelopes of `A`, `B`,
`C`; `[4]` is a two-message envelope; everything else fails to decode. -/
def exDecoder : Bytes → Except Err Tx
  | [1] => .ok ⟨[.eth msgA]⟩
  | [2] => .ok ⟨[.other "/cosmos.bank.v1beta1.MsgSend"]⟩
  | [3] => .ok ⟨[.eth msgC]⟩
  | [4] => .ok ⟨[.other "/cosmos.bank.v1beta1.MsgSend", .eth msgA, .eth msgC]⟩
  | _ => .error (.upstream "tx parse error")

/-- The example block at height 5. -/
def exBlock : ResultBlock := ⟨[171], ⟨5, 1700000000, [9], [[1], [2], [3]]⟩⟩

/-- The block `[A, undecodable, B (native), C]` at height 5. -/
def exBlockBad : ResultBlock := ⟨[171], ⟨5, 1700000000, [9], [[1], [9], [2], [3]]⟩⟩

/-- An example backend: every hash is located at `loc`, every height holds
`blk`, and the conversion `rpc.BlockNumber.Int64` returns the numeric value of
the block number. -/
def exBackend (loc : TxResult) (blk : ResultBlock) : Backend :=
  { GetTxByEthHash := fun _ => .ok loc
    TendermintBlockByNumber := fun _ => .ok blk
    TxDecoder := exDecoder
    isNetworkClient := true
    ConsensusParams := fun _ => .ok 30000000
    chainID := 7210
    TraceTx := fun _ _ => .ok [123, 125]
    TraceBlock := fun _ _ => .ok [91, 93]
    TraceCall := fun _ _ => .ok [123, 125]
    BlockNumberInt64 := fun bn => bn
    unmarshalRaw := fun data => .ok data
    unmarshalResults := fun _ => .ok [] }


/-! ## `EthSigVerificationDecorator` -/

/-- A gas meter (`storetypes.GasMeter`): the basic meter with a limit, or the
infinite meter; both count the gas consumed so far. -/
inductive GasMeter where
  | basic (limit consumed : Nat)
  | infinite (consumed : Nat)
deriving DecidableEq, Repr

/-- The constructor `sdk.NewInfiniteGasMeter()`: an infinite meter with nothing
consumed. -/
def NewInfiniteGasMeter : GasMeter := .infinite 0

/-- The gas costs of store operations (`storetypes.GasConfig`), all `uint64`. -/
structure GasConfig where
  HasCost : Nat
  DeleteCost : Nat
  ReadCostFlat : Nat
  ReadCostPerByte : Nat
  WriteCostFlat : Nat
  WriteCostPerByte : Nat
  IterNextCostFlat : Nat
deriving DecidableEq, Repr

/-- The zero value `storetypes.GasConfig{}`. -/
def GasConfig.zero : GasConfig := ⟨0, 0, 0, 0, 0, 0, 0⟩

/-- The fields of `sdk.Context` that the decorators read or replace. -/
structure Context where
  BlockHeight : Int
  BlockTime : Nat
  ChainID : String
  gasMeter : GasMeter
  kvGasConfig : GasConfig
  transientKVGasConfig : GasConfig
deriving DecidableEq, Repr

/-- The method `sdk.Context.WithGasMeter`: a copy with the gas meter replaced. -/
def Context.WithGasMeter (c : Context) (meter : GasMeter) : Context :=
  { c with gasMeter := meter }

/-- The method `sdk.Context.WithKVGasConfig`: a copy with the KV gas
configuration replaced. -/
def Context.WithKVGasConfig (c : Context) (gasConfig : GasConfig) : Context :=
  { c with kvGasConfig := gasConfig }

/-- The method `sdk.Context.WithTransientKVGasConfig`: a copy with the
transient-KV gas configuration replaced. -/
def Context.WithTransientKVGasConfig (c : Context) (gasConfig : GasConfig) : Context :=
  { c with transientKVGasConfig := gasConfig }

/-- The value `gethcore.MakeSigner(evm.EthereumConfig(chainID), blockNum, time)`,
represented by the three values that select the signing scheme. -/
structure Signer where
  chainID : Int
  blockNum : Int
  blockTime : Nat
deriving DecidableEq, Repr

/-- An Ethereum address (`gethcommon.Address`). -/
abbrev Address := List Nat

/-- Errors of the ante handler chain. -/
inductive SdkErr where
  /-- Source `sdkerrors.ErrUnknownRequest` wrapped with "invalid message type %T, expected %T" -/
  | ErrUnknownRequest (msgType : String)
  /-- Source `sdkerrors.ErrorInvalidSigner` wrapped with the recovery error -/
  | ErrorInvalidSigner (cause : String)
  /-- Source `sdkerrors.ErrInvalidType` wrapped with "invalid transaction type %T, expected GasTx" -/
  | ErrInvalidType
  /-- any error returned by the rest of the chain -/
  | other (msg : String)
deriving DecidableEq, Repr

/-- The continuation `sdk.AnteHandler`. -/
abbrev AnteHandler := Context → Tx → Bool → Context × Option SdkErr

/-- The keeper and library functions used by the decorator. -/
structure EVMKeeper where
  /-- Source `evmKeeper.EthChainID(ctx)` -/
  EthChainID : Context → Int
  /-- Source `evm.ParseBlockTimeUnixU64(ctx)` -/
  ParseBlockTimeUnixU64 : Context → Nat
  /-- Source `signer.Sender(msgEthTx.AsTransaction())`: recovery of the sender from
  the signature of the payload -/
  Sender : Signer → MsgEthereumTx → Except String Address
  /-- Source `gethcommon.Address.Hex` -/
  Hex : Address → String

/-- What an ante decorator leaves behind: the returned context and error, the
envelope as it stands after the in-place writes to its messages, and the calls
made to `next`. -/
structure AnteResult where
  newCtx : Context
  err : Option SdkErr
  tx : Tx
  nextCalls : List (Context × Tx × Bool)
deriving DecidableEq, Repr

namespace EthSigVerificationDecorator

/-- The loop `for _, msg := range tx.GetMsgs()` of `AnteHandle`
(evmante_sigverify.go 45-74): the messages after the in-place writes of `From`,
and the error of the first message that fails, if any. -/
def verifyMsgs (k : EVMKeeper) (signer : Signer) : List Msg → List Msg × Option SdkErr
  | [] => ([], none)
  | .other typeURL :: rest => (.other typeURL :: rest, some (.ErrUnknownRequest typeURL))
  | .eth msgEthTx :: rest =>
    match k.Sender signer msgEthTx with
    | .error e => (.eth msgEthTx :: rest, some (.ErrorInvalidSigner e))
    | .ok sender =>
      let r := verifyMsgs k signer rest
      (.eth { msgEthTx with From := k.Hex sender } :: r.1, r.2)

/-- The method `EthSigVerificationDecorator.AnteHandle`
(evmante_sigverify.go 33-77). -/
def AnteHandle (evmKeeper : EVMKeeper) (ctx : Context) (tx : Tx) (simulate : Bool)
    (next : AnteHandler) : AnteResult :=
  let chainID := evmKeeper.EthChainID ctx
  let blockNum := ctx.BlockHeight
  let signer : Signer := ⟨chainID, blockNum, evmKeeper.ParseBlockTimeUnixU64 ctx⟩
  match verifyMsgs evmKeeper signer tx.GetMsgs with
  | (msgs, some err) => { newCtx := ctx, err := some err, tx := ⟨msgs⟩, nextCalls := [] }
  | (msgs, none) =>
    let r := next ctx ⟨msgs⟩ simulate
    { newCtx := r.1, err := r.2, tx := ⟨msgs⟩, nextCalls := [(ctx, ⟨msgs⟩, simulate)] }

/-- The signer that `AnteHandle` builds for a context. -/
def signerOf (evmKeeper : EVMKeeper) (ctx : Context) : Signer :=
  ⟨evmKeeper.EthChainID ctx, ctx.BlockHeight, evmKeeper.ParseBlockTimeUnixU64 ctx⟩

/-- The specification's effect on one message: an Ethereum-style payload gets
`From` set to the hex form of the address recovered from its signature. -/
def withRecoveredSender (k : EVMKeeper) (signer : Signer) : Msg → Msg
  | .other typeURL => .other typeURL
  | .eth m =>
    match k.Sender signer m with
    | .error _ => .eth m
    | .ok sender => .eth { m with From := k.Hex sender }

end EthSigVerificationDecorator

/-! ## `EthSetupContextDecorator` -/

namespace EthSetupContextDecorator

/-- The method `EthSetupContextDecorator.AnteHandle` (evmante_setup_ctx.go
24-45).  The receiver is not used by the body.  `assertGasTx` is the type
assertion `tx.(authante.GasTx)`: the gas limit `GetGas()` when the dynamic type
of the transaction implements `GasTx`, nothing otherwise. -/
def AnteHandle (assertGasTx : Tx → Option Nat) (ctx : Context) (tx : Tx) (simulate : Bool)
    (next : AnteHandler) : AnteResult :=
  match assertGasTx tx with
  | none => { newCtx := ctx, err := some .ErrInvalidType, tx := tx, nextCalls := [] }
  | some _ =>
    let newCtx := ((ctx.WithGasMeter NewInfiniteGasMeter).WithKVGasConfig
      GasConfig.zero).WithTransientKVGasConfig GasConfig.zero
    let r := next newCtx tx simulate
    { newCtx := r.1, err := r.2, tx := tx, nextCalls := [(newCtx, tx, simulate)] }

end EthSetupContextDecorator

/-- An example type assertion: an envelope with at least one message has a
dynamic type with a gas limit of 21000, the empty envelope stands for a
transaction type without `GetGas`. -/
def exAssertGasTx : Tx → Option Nat
  | ⟨[]⟩ => none
  | ⟨_ :: _⟩ => some 21000

/-- An example backend whose replay engine answers the block trace with two
results, one per payload it was sent. -/
def exBackendTwoResults (blk : ResultBlock) : Backend :=
  { exBackend ⟨5, 2, 0⟩ blk with
    unmarshalResults := fun _ => .ok [some ⟨"trace of A", ""⟩, some ⟨"trace of C", ""⟩] }

/-- The empty block at height 5. -/
def exBlockEmpty : ResultBlock := ⟨[171], ⟨5, 1700000000, [9], []⟩⟩

/-- An example keeper: chain 7210; the payload with data `[1]` is signed by
address `[187]`, the one with data `[3]` by `[204]`, any other payload has a
bad signature. -/
def exKeeper : EVMKeeper :=
  { EthChainID := fun _ => 7210
    ParseBlockTimeUnixU64 := fun ctx => ctx.BlockTime
    Sender := fun _ m =>
      match m.Data with
      | [1] => .ok [187]
      | [3] => .ok [204]
      | _ => .error "invalid signature"
    Hex := fun a => if a = [187] then "0xBb" else if a = [204] then "0xCc" else "0x00" }

/-- An example context, with a basic gas meter and non-zero store gas costs. -/
def exCtx : Context :=
  { BlockHeight := 5
    BlockTime := 1700000000
    ChainID := "nibiru-7210"
    gasMeter := .basic 200000 1000
    kvGasConfig := ⟨1000, 1000, 1000, 3, 2000, 30, 30⟩
    transientKVGasConfig := ⟨100, 100, 100, 0, 200, 3, 3⟩ }

/-- An example continuation: accepts and marks the context. -/
def exNext : AnteHandler := fun ctx _ _ => ({ ctx with ChainID := "next" }, none)

/-! ## Lemmas on the collection loops -/

theorem appendEthMsgs_append (acc : List MsgEthereumTx) (l₁ l₂ : List Msg) :
    appendEthMsgs acc (l₁ ++ l₂) = appendEthMsgs (appendEthMsgs acc l₁) l₂ := by
  simp [appendEthMsgs, List.foldl_append]

theorem appendEthMsgs_acc (acc : List MsgEthereumTx) (msgs : List Msg) :
    appendEthMsgs acc msgs = acc ++ appendEthMsgs [] msgs := by
  induction msgs generalizing acc with
  | nil => simp [appendEthMsgs]
  | cons msg rest ih =>
    cases msg with
    | eth m =>
      show appendEthMsgs (acc ++ [m]) rest = acc ++ appendEthMsgs ([] ++ [m]) rest
      rw [ih (acc ++ [m]), ih ([] ++ [m])]
      simp
    | other u =>
      show appendEthMsgs acc rest = acc ++ appendEthMsgs [] rest
      exact ih acc

theorem appendBlockEthMsgs_append (dec : Bytes → Except Err Tx) (acc : List MsgEthereumTx)
    (l₁ l₂ : List Bytes) :
    appendBlockEthMsgs dec acc (l₁ ++ l₂) =
      appendBlockEthMsgs dec (appendBlockEthMsgs dec acc l₁) l₂ := by
  simp [appendBlockEthMsgs, List.foldl_append]

theorem ethMsgsBefore_succ (msgs : List Msg) (j : Nat) :
    ethMsgsBefore msgs (j + 1) = ethMsgsBefore msgs j ++ ethMsgAt msgs j := by
  simp [ethMsgsBefore, List.range_succ, List.flatMap_append]

/-- The inner loop over the first `j` messages collects exactly the
Ethereum-style messages at positions `[0, j)`. -/
theorem appendEthMsgs_take (msgs : List Msg) (j : Nat) :
    appendEthMsgs [] (msgs.take j) = ethMsgsBefore msgs j := by
  induction j with
  | zero => simp [appendEthMsgs, ethMsgsBefore]
  | succ j ih =>
    rw [List.take_succ, appendEthMsgs_append, ih, ethMsgsBefore_succ]
    cases h : msgs[j]? with
    | none => simp [appendEthMsgs, ethMsgAt, h]
    | some msg => cases msg <;> simp [appendEthMsgs, ethMsgAt, h]

theorem appendEthMsgs_all (msgs : List Msg) :
    appendEthMsgs [] msgs = ethMsgsBefore msgs msgs.length := by
  have h := appendEthMsgs_take msgs msgs.length
  rwa [List.take_length] at h

/-- The outer loop over the first `i` envelopes collects exactly the
Ethereum-style messages of the decodable envelopes at positions `[0, i)`. -/
theorem appendBlockEthMsgs_take (dec : Bytes → Except Err Tx) (txs : List Bytes) (i : Nat) :
    appendBlockEthMsgs dec [] (txs.take i) =
      (List.range i).flatMap (envelopeEthMsgs dec txs) := by
  induction i with
  | zero => simp [appendBlockEthMsgs]
  | succ i ih =>
    rw [List.take_succ, appendBlockEthMsgs_append, ih, List.range_succ, List.flatMap_append]
    cases h : txs[i]? with
    | none => simp [appendBlockEthMsgs, envelopeEthMsgs, h]
    | some txBz =>
      cases hd : dec txBz with
      | error e => simp [appendBlockEthMsgs, envelopeEthMsgs, h, hd]
      | ok tx =>
        simp only [appendBlockEthMsgs, envelopeEthMsgs, h, hd, Option.toList, List.foldl_cons,
          List.foldl_nil, List.flatMap_cons, List.flatMap_nil, List.append_nil]
        rw [appendEthMsgs_acc, appendEthMsgs_all]

theorem appendBlockEthMsgs_all (dec : Bytes → Except Err Tx) (txs : List Bytes) :
    appendBlockEthMsgs dec [] txs = specBlockPayloads dec txs := by
  have h := appendBlockEthMsgs_take dec txs txs.length
  rwa [List.take_length] at h

/-! ## Trace-by-hash -/

/-- The run of `TraceTransaction` once the transaction is located at a non-zero
height, its block is fetched, the index check passes and the target envelope
is read and decoded: what remains is the message lookup and the engine call. -/
theorem TraceTransaction_located (b : Backend) (hash : Hash) (config : Option TraceConfig)
    (loc : TxResult) (blk : ResultBlock) (txBz : Bytes) (tx : Tx)
    (hloc : b.GetTxByEthHash hash = .ok loc) (hH : loc.Height ≠ 0)
    (hblk : b.TendermintBlockByNumber loc.Height = .ok blk)
    (hlen : blk.Block.Txs.length ≤ MaxUint32)
    (hi : blk.Block.Txs[loc.TxIndex]? = some txBz)
    (hdec : b.TxDecoder txBz = .ok tx)
    (hj : loc.MsgIndex < tx.GetMsgs.length) :
    TraceTransaction b hash config =
      match tx.GetMsgs[loc.MsgIndex]? with
      | none => ⟨[.GetTxByEthHash hash, .TendermintBlockByNumber loc.Height],
          .panic "index out of range"⟩
      | some (.other _) => ⟨[.GetTxByEthHash hash, .TendermintBlockByNumber loc.Height],
          .error .invalidTransactionType⟩
      | some (.eth m) =>
        if b.isNetworkClient = false then
          ⟨[.GetTxByEthHash hash, .TendermintBlockByNumber loc.Height],
            .error .invalidRpcClient⟩
        else
          match b.ConsensusParams blk.Block.Height with
          | .error e => ⟨[.GetTxByEthHash hash, .TendermintBlockByNumber loc.Height,
              .ConsensusParams blk.Block.Height], .error e⟩
          | .ok maxGas =>
            let req : QueryTraceTxRequest :=
              { Msg := m
                TraceConfig := config
                Predecessors := specPredecessors b.TxDecoder blk.Block.Txs
                  loc.TxIndex loc.MsgIndex tx
                BlockNumber := blk.Block.Height
                BlockTime := blk.Block.Time
                BlockHash := blk.BlockIDHash
                ProposerAddress := blk.Block.ProposerAddress
                ChainId := wrapInt64 b.chainID
                BlockMaxGas := maxGas }
            let h := max (wrapInt64 (loc.Height - 1)) 1
            ⟨[.GetTxByEthHash hash, .TendermintBlockByNumber loc.Height,
              .ConsensusParams blk.Block.Height, .TraceTx h req],
              match b.TraceTx h req with
              | .error e => .error e
              | .ok data =>
                match b.unmarshalRaw data with
                | .error e => .error e
                | .ok res => .ok res⟩ := by
  have hi' : loc.TxIndex < blk.Block.Txs.length := by
    rcases List.getElem?_eq_some_iff.mp hi with ⟨h, _⟩
    exact h
  have h32 : toUint32 blk.Block.Txs.length = blk.Block.Txs.length := by
    unfold toUint32; unfold MaxUint32 at hlen; omega
  have hlen' : ¬ blk.Block.Txs.length > MaxUint32 := by omega
  have hj' : ¬ tx.GetMsgs.length < loc.MsgIndex := by omega
  have hi'' : ¬ blk.Block.Txs.length < loc.TxIndex := by omega
  unfold TraceTransaction
  simp only [bind, Run.bind, Run.call, hloc, hH, hblk, hlen', h32, hi'', hi, hdec, hj',
    if_false, appendBlockEthMsgs_take]
  rw [appendEthMsgs_acc, appendEthMsgs_take]
  cases hm : tx.GetMsgs[loc.MsgIndex]? with
  | none => simp [Run.abort]
  | some msg =>
    cases msg with
    | other u => simp [Run.fail]
    | eth m =>
      cases hn : b.isNetworkClient with
      | false => simp [Run.fail]
      | true =>
        cases hcp : b.ConsensusParams blk.Block.Height with
        | error e => simp
        | ok maxGas =>
          cases config <;>
          · simp only [specPredecessors, Option.isSome_none, Option.isSome_some, Bool.not_true,
              Bool.false_eq_true, if_false, if_true, List.cons_append, List.nil_append]
            generalize QueryTraceTxRequest.mk m _ _ _ _ _ _ _ _ = req
            cases hT : b.TraceTx (max (wrapInt64 (loc.Height - 1)) 1) req with
            | error e => simp
            | ok data =>
              cases hu : b.unmarshalRaw data with
              | error e => simp [Run.fail, hu]
              | ok res => simp [Run.pure, hu]


theorem TraceTransaction_not_found (b : Backend) (hash : Hash) (config : Option TraceConfig)
    (e : Err) (hloc : b.GetTxByEthHash hash = .error e) :
    TraceTransaction b hash config = ⟨[.GetTxByEthHash hash], .error e⟩ := by
  simp [TraceTransaction, bind, Run.bind, Run.call, hloc]

theorem TraceTransaction_genesis (b : Backend) (hash : Hash) (config : Option TraceConfig)
    (loc : TxResult) (hloc : b.GetTxByEthHash hash = .ok loc) (hH : loc.Height = 0) :
    TraceTransaction b hash config =
      ⟨[.GetTxByEthHash hash], .error .genesisNotTraceable⟩ := by
  simp [TraceTransaction, bind, Run.bind, Run.call, Run.fail, hloc, hH]

theorem TraceTransaction_block_not_found (b : Backend) (hash : Hash)
    (config : Option TraceConfig) (loc : TxResult) (e : Err)
    (hloc : b.GetTxByEthHash hash = .ok loc) (hH : loc.Height ≠ 0)
    (hblk : b.TendermintBlockByNumber loc.Height = .error e) :
    TraceTransaction b hash config =
      ⟨[.GetTxByEthHash hash, .TendermintBlockByNumber loc.Height], .error e⟩ := by
  simp [TraceTransaction, bind, Run.bind, Run.call, hloc, hH, hblk]

theorem TraceTransaction_overflow (b : Backend) (hash : Hash)
    (config : Option TraceConfig) (loc : TxResult) (blk : ResultBlock)
    (hloc : b.GetTxByEthHash hash = .ok loc) (hH : loc.Height ≠ 0)
    (hblk : b.TendermintBlockByNumber loc.Height = .ok blk)
    (hlen : MaxUint32 < blk.Block.Txs.length) :
    TraceTransaction b hash config =
      ⟨[.GetTxByEthHash hash, .TendermintBlockByNumber loc.Height],
        .error (.txCountOverflowing blk.Block.Txs.length)⟩ := by
  simp [TraceTransaction, bind, Run.bind, Run.call, Run.fail, hloc, hH, hblk, hlen]

/-- An index beyond the transaction count is rejected by the check at
tracing.go 48-51. -/
theorem TraceTransaction_txIndex_gt (b : Backend) (hash : Hash)
    (config : Option TraceConfig) (loc : TxResult) (blk : ResultBlock)
    (hloc : b.GetTxByEthHash hash = .ok loc) (hH : loc.Height ≠ 0)
    (hblk : b.TendermintBlockByNumber loc.Height = .ok blk)
    (hlen : blk.Block.Txs.length ≤ MaxUint32)
    (hi : blk.Block.Txs.length < loc.TxIndex) :
    TraceTransaction b hash config =
      ⟨[.GetTxByEthHash hash, .TendermintBlockByNumber loc.Height],
        .error (.txNotIncludedInBlock blk.Block.Height)⟩ := by
  have h32 : toUint32 blk.Block.Txs.length = blk.Block.Txs.length := by
    unfold toUint32; unfold MaxUint32 at hlen; omega
  have hlen' : ¬ blk.Block.Txs.length > MaxUint32 := by omega
  simp [TraceTransaction, bind, Run.bind, Run.call, Run.fail, hloc, hH, hblk, hlen', h32, hi]

/-- An index equal to the transaction count passes the check at tracing.go
48-51 and the run panics at `blk.Block.Txs[transaction.TxIndex]` (line 70). -/
theorem TraceTransaction_txIndex_eq (b : Backend) (hash : Hash)
    (config : Option TraceConfig) (loc : TxResult) (blk : ResultBlock)
    (hloc : b.GetTxByEthHash hash = .ok loc) (hH : loc.Height ≠ 0)
    (hblk : b.TendermintBlockByNumber loc.Height = .ok blk)
    (hlen : blk.Block.Txs.length ≤ MaxUint32)
    (hi : loc.TxIndex = blk.Block.Txs.length) :
    TraceTransaction b hash config =
      ⟨[.GetTxByEthHash hash, .TendermintBlockByNumber loc.Height],
        .panic "index out of range"⟩ := by
  have h32 : toUint32 blk.Block.Txs.length = blk.Block.Txs.length := by
    unfold toUint32; unfold MaxUint32 at hlen; omega
  have hlen' : ¬ blk.Block.Txs.length > MaxUint32 := by omega
  have hget : blk.Block.Txs[loc.TxIndex]? = none := by
    rw [List.getElem?_eq_none_iff]; omega
  simp [TraceTransaction, bind, Run.bind, Run.call, Run.abort, hloc, hH, hblk, hlen', h32, hi,
    hget]

theorem TraceTransaction_decode_error (b : Backend) (hash : Hash)
    (config : Option TraceConfig) (loc : TxResult) (blk : ResultBlock) (txBz : Bytes) (e : Err)
    (hloc : b.GetTxByEthHash hash = .ok loc) (hH : loc.Height ≠ 0)
    (hblk : b.TendermintBlockByNumber loc.Height = .ok blk)
    (hlen : blk.Block.Txs.length ≤ MaxUint32)
    (hi : blk.Block.Txs[loc.TxIndex]? = some txBz)
    (hdec : b.TxDecoder txBz = .error e) :
    TraceTransaction b hash config =
      ⟨[.GetTxByEthHash hash, .TendermintBlockByNumber loc.Height], .error e⟩ := by
  have hi' : loc.TxIndex < blk.Block.Txs.length := by
    rcases List.getElem?_eq_some_iff.mp hi with ⟨h, _⟩
    exact h
  have h32 : toUint32 blk.Block.Txs.length = blk.Block.Txs.length := by
    unfold toUint32; unfold MaxUint32 at hlen; omega
  have hlen' : ¬ blk.Block.Txs.length > MaxUint32 := by omega
  have hi'' : ¬ blk.Block.Txs.length < loc.TxIndex := by omega
  simp [TraceTransaction, bind, Run.bind, Run.call, Run.fail, hloc, hH, hblk, hlen', h32, hi'',
    hi, hdec]

/-- A message index at or beyond the message count of the decoded target
envelope is not rejected: the run panics at the slice expression (line 77)
or at the index expression (line 85). -/
theorem TraceTransaction_msgIndex_ge (b : Backend) (hash : Hash)
    (config : Option TraceConfig) (loc : TxResult) (blk : ResultBlock) (txBz : Bytes) (tx : Tx)
    (hloc : b.GetTxByEthHash hash = .ok loc) (hH : loc.Height ≠ 0)
    (hblk : b.TendermintBlockByNumber loc.Height = .ok blk)
    (hlen : blk.Block.Txs.length ≤ MaxUint32)
    (hi : blk.Block.Txs[loc.TxIndex]? = some txBz)
    (hdec : b.TxDecoder txBz = .ok tx)
    (hj : tx.GetMsgs.length ≤ loc.MsgIndex) :
    TraceTransaction b hash config =
      ⟨[.GetTxByEthHash hash, .TendermintBlockByNumber loc.Height],
        .panic (if tx.GetMsgs.length < loc.MsgIndex then "slice bounds out of range"
          else "index out of range")⟩ := by
  have hi' : loc.TxIndex < blk.Block.Txs.length := by
    rcases List.getElem?_eq_some_iff.mp hi with ⟨h, _⟩
    exact h
  have h32 : toUint32 blk.Block.Txs.length = blk.Block.Txs.length := by
    unfold toUint32; unfold MaxUint32 at hlen; omega
  have hlen' : ¬ blk.Block.Txs.length > MaxUint32 := by omega
  have hi'' : ¬ blk.Block.Txs.length < loc.TxIndex := by omega
  have hget : tx.GetMsgs[loc.MsgIndex]? = none := by
    rw [List.getElem?_eq_none_iff]; omega
  by_cases hlt : tx.GetMsgs.length < loc.MsgIndex
  · simp [TraceTransaction, bind, Run.bind, Run.call, Run.abort, hloc, hH, hblk, hlen', h32,
      hi'', hi, hdec, hlt]
  · simp [TraceTransaction, bind, Run.bind, Run.call, Run.abort, hloc, hH, hblk, hlen', h32,
      hi'', hi, hdec, hlt, hget]

/-- Every run of `TraceTransaction` either makes no replay-engine call or went
through a located transaction at a non-zero height with in-range indices and a
decodable target envelope. -/
theorem TraceTransaction_engine_inv (b : Backend) (hash : Hash) (config : Option TraceConfig) :
    (∀ c ∈ (TraceTransaction b hash config).calls, c.isEngine = false) ∨
    ∃ loc blk txBz tx, b.GetTxByEthHash hash = .ok loc ∧ loc.Height ≠ 0 ∧
      b.TendermintBlockByNumber loc.Height = .ok blk ∧
      blk.Block.Txs.length ≤ MaxUint32 ∧
      blk.Block.Txs[loc.TxIndex]? = some txBz ∧
      b.TxDecoder txBz = .ok tx ∧
      loc.MsgIndex < tx.GetMsgs.length := by
  cases hloc : b.GetTxByEthHash hash with
  | error e => left; rw [TraceTransaction_not_found b hash config e hloc]; simp [Call.isEngine]
  | ok loc =>
  by_cases hH : loc.Height = 0
  · left; rw [TraceTransaction_genesis b hash config loc hloc hH]; simp [Call.isEngine]
  cases hblk : b.TendermintBlockByNumber loc.Height with
  | error e =>
    left; rw [TraceTransaction_block_not_found b hash config loc e hloc hH hblk]
    simp [Call.isEngine]
  | ok blk =>
  by_cases hlen : blk.Block.Txs.length ≤ MaxUint32
  swap
  · left; rw [TraceTransaction_overflow b hash config loc blk hloc hH hblk (by omega)]
    simp [Call.isEngine]
  rcases Nat.lt_trichotomy loc.TxIndex blk.Block.Txs.length with hi | hi | hi
  swap
  · left; rw [TraceTransaction_txIndex_eq b hash config loc blk hloc hH hblk hlen hi]
    simp [Call.isEngine]
  swap
  · left; rw [TraceTransaction_txIndex_gt b hash config loc blk hloc hH hblk hlen hi]
    simp [Call.isEngine]
  have hget : blk.Block.Txs[loc.TxIndex]? = some (blk.Block.Txs[loc.TxIndex]) :=
    List.getElem?_eq_getElem hi
  cases hdec : b.TxDecoder (blk.Block.Txs[loc.TxIndex]) with
  | error e =>
    left; rw [TraceTransaction_decode_error b hash config loc blk _ e hloc hH hblk hlen hget hdec]
    simp [Call.isEngine]
  | ok tx =>
  by_cases hj : loc.MsgIndex < tx.GetMsgs.length
  · right; exact ⟨loc, blk, _, tx, rfl, hH, hblk, hlen, hget, hdec, hj⟩
  · left
    rw [TraceTransaction_msgIndex_ge b hash config loc blk _ tx hloc hH hblk hlen hget hdec
      (by omega)]
    simp [Call.isEngine]


theorem wrapInt64_pred (H : Int) (h0 : 0 ≤ H) (h63 : H < 2 ^ 63) :
    wrapInt64 (H - 1) = H - 1 := by
  unfold wrapInt64
  norm_num at h63 ⊢
  omega

theorem max_wrapInt64_pred (H : Int) (h0 : 0 ≤ H) (h63 : H < 2 ^ 63) :
    max (wrapInt64 (H - 1)) 1 = resolve H := by
  rw [wrapInt64_pred H h0 h63, resolve]

theorem one_le_resolve (H : Int) : 1 ≤ resolve H := le_max_right _ _

/-- Every `TraceTx` call recorded by a located run carries the snapshot height
`max(H-1, 1)` (in `int64` arithmetic) and the predecessor list of the
specification. -/
theorem TraceTransaction_traceTx_mem (b : Backend) (hash : Hash) (config : Option TraceConfig)
    (loc : TxResult) (blk : ResultBlock) (txBz : Bytes) (tx : Tx)
    (hloc : b.GetTxByEthHash hash = .ok loc) (hH : loc.Height ≠ 0)
    (hblk : b.TendermintBlockByNumber loc.Height = .ok blk)
    (hlen : blk.Block.Txs.length ≤ MaxUint32)
    (hi : blk.Block.Txs[loc.TxIndex]? = some txBz)
    (hdec : b.TxDecoder txBz = .ok tx)
    (hj : loc.MsgIndex < tx.GetMsgs.length)
    (h : Int) (r : QueryTraceTxRequest)
    (hmem : Call.TraceTx h r ∈ (TraceTransaction b hash config).calls) :
    h = max (wrapInt64 (loc.Height - 1)) 1 ∧
      r.Predecessors = specPredecessors b.TxDecoder blk.Block.Txs loc.TxIndex loc.MsgIndex tx := by
  rw [TraceTransaction_located b hash config loc blk txBz tx hloc hH hblk hlen hi hdec hj] at hmem
  cases hm : tx.GetMsgs[loc.MsgIndex]? with
  | none => simp [hm] at hmem
  | some msg =>
    cases msg with
    | other u => simp [hm] at hmem
    | eth m =>
      cases hn : b.isNetworkClient with
      | false => simp [hm, hn] at hmem
      | true =>
        cases hcp : b.ConsensusParams blk.Block.Height with
        | error e => simp [hm, hn, hcp] at hmem
        | ok maxGas =>
          simp only [hm, hn, hcp, Bool.true_eq_false, if_false, List.mem_cons, reduceCtorEq,
            false_or, Call.TraceTx.injEq, List.mem_nil_iff, or_false] at hmem
          rcases hmem with ⟨rfl, rfl⟩
          exact ⟨rfl, rfl⟩

/-- When the target message is Ethereum-style and the consensus parameters are
available, the run calls the replay engine exactly once. -/
theorem TraceTransaction_engineCalls (b : Backend) (hash : Hash) (config : Option TraceConfig)
    (loc : TxResult) (blk : ResultBlock) (txBz : Bytes) (tx : Tx) (m : MsgEthereumTx)
    (maxGas : Int)
    (hloc : b.GetTxByEthHash hash = .ok loc) (hH : loc.Height ≠ 0)
    (hblk : b.TendermintBlockByNumber loc.Height = .ok blk)
    (hlen : blk.Block.Txs.length ≤ MaxUint32)
    (hi : blk.Block.Txs[loc.TxIndex]? = some txBz)
    (hdec : b.TxDecoder txBz = .ok tx)
    (hm : tx.GetMsgs[loc.MsgIndex]? = some (.eth m))
    (hn : b.isNetworkClient = true)
    (hcp : b.ConsensusParams blk.Block.Height = .ok maxGas) :
    (TraceTransaction b hash config).engineCalls =
      [Call.TraceTx (max (wrapInt64 (loc.Height - 1)) 1)
        { Msg := m
          TraceConfig := config
          Predecessors := specPredecessors b.TxDecoder blk.Block.Txs loc.TxIndex loc.MsgIndex tx
          BlockNumber := blk.Block.Height
          BlockTime := blk.Block.Time
          BlockHash := blk.BlockIDHash
          ProposerAddress := blk.Block.ProposerAddress
          ChainId := wrapInt64 b.chainID
          BlockMaxGas := maxGas }] := by
  have hj : loc.MsgIndex < tx.GetMsgs.length := by
    rcases List.getElem?_eq_some_iff.mp hm with ⟨h, _⟩
    exact h
  rw [TraceTransaction_located b hash config loc blk txBz tx hloc hH hblk hlen hi hdec hj]
  simp [hm, hn, hcp, Run.engineCalls, Call.isEngine]

/-- Claim C1.  For a transaction located at block position `i`, message
position `j` (both in range, target envelope decodable), every trace request
that `TraceTransaction` sends carries as `Predecessors` exactly the
Ethereum-style messages of the decodable envelopes at block positions `[0, i)`
followed by the Ethereum-style messages at positions `[0, j)` of envelope `i`;
and when the target message is Ethereum-style and the consensus parameters are
available, exactly one such request is sent, for the target message. -/
theorem TraceTransaction_predecessors (b : Backend) (hash : Hash)
    (config : Option TraceConfig) (loc : TxResult) (blk : ResultBlock) (txBz : Bytes) (tx : Tx)
    (hloc : b.GetTxByEthHash hash = .ok loc) (hH : loc.Height ≠ 0)
    (hblk : b.TendermintBlockByNumber loc.Height = .ok blk)
    (hlen : blk.Block.Txs.length ≤ MaxUint32)
    (hi : blk.Block.Txs[loc.TxIndex]? = some txBz)
    (hdec : b.TxDecoder txBz = .ok tx)
    (hj : loc.MsgIndex < tx.GetMsgs.length) :
    (∀ h r, Call.TraceTx h r ∈ (TraceTransaction b hash config).calls →
      r.Predecessors =
        specPredecessors b.TxDecoder blk.Block.Txs loc.TxIndex loc.MsgIndex tx) ∧
    (∀ m maxGas, tx.GetMsgs[loc.MsgIndex]? = some (.eth m) → b.isNetworkClient = true →
      b.ConsensusParams blk.Block.Height = .ok maxGas →
      ∃ h r, (TraceTransaction b hash config).engineCalls = [Call.TraceTx h r] ∧
        r.Msg = m ∧
        r.Predecessors =
          specPredecessors b.TxDecoder blk.Block.Txs loc.TxIndex loc.MsgIndex tx) := by
  refine ⟨fun h r hmem => ?_, fun m maxGas hm hn hcp => ?_⟩
  · exact (TraceTransaction_traceTx_mem b hash config loc blk txBz tx hloc hH hblk hlen hi hdec
      hj h r hmem).2
  · exact ⟨_, _, TraceTransaction_engineCalls b hash config loc blk txBz tx m maxGas hloc hH
      hblk hlen hi hdec hm hn hcp, rfl, rfl⟩

/-- Claim C1 on the block `[A, B (native), C]` traced for `C`: the hypotheses
hold, and the single request sent carries the predecessor list `[A]`. -/
theorem TraceTransaction_predecessors_witness :
    ((exBackend ⟨5, 2, 0⟩ exBlock).GetTxByEthHash [] = .ok ⟨5, 2, 0⟩ ∧ (5 : Int) ≠ 0 ∧
      (exBackend ⟨5, 2, 0⟩ exBlock).TendermintBlockByNumber 5 = .ok exBlock ∧
      exBlock.Block.Txs.length ≤ MaxUint32 ∧ exBlock.Block.Txs[2]? = some [3] ∧
      exDecoder [3] = .ok ⟨[.eth msgC]⟩ ∧ 0 < [Msg.eth msgC].length) ∧
    specPredecessors exDecoder exBlock.Block.Txs 2 0 ⟨[.eth msgC]⟩ = [msgA] ∧
    (∀ h r, Call.TraceTx h r ∈ (TraceTransaction (exBackend ⟨5, 2, 0⟩ exBlock) [] none).calls →
      r.Predecessors = specPredecessors exDecoder exBlock.Block.Txs 2 0 ⟨[.eth msgC]⟩) ∧
    (∀ m maxGas, (some (Msg.eth msgC) : Option Msg) = some (.eth m) → true = true →
      (Except.ok 30000000 : Except Err Int) = .ok maxGas →
      ∃ h r, (TraceTransaction (exBackend ⟨5, 2, 0⟩ exBlock) [] none).engineCalls =
          [Call.TraceTx h r] ∧
        r.Msg = m ∧
        r.Predecessors = specPredecessors exDecoder exBlock.Block.Txs 2 0 ⟨[.eth msgC]⟩) :=
  ⟨⟨rfl, by decide, rfl, by decide, rfl, rfl, by decide⟩, by decide,
    TraceTransaction_predecessors (exBackend ⟨5, 2, 0⟩ exBlock) [] none ⟨5, 2, 0⟩ exBlock [3]
      ⟨[.eth msgC]⟩ rfl (by decide) rfl (by decide) rfl rfl (by decide)⟩

/-! ## Whole-block trace -/

theorem TraceBlock_empty (b : Backend) (height : Int) (config : Option TraceConfig)
    (block : ResultBlock) (hz : block.Block.Txs = []) :
    TraceBlock b height config block = ⟨[], .ok []⟩ := by
  simp [TraceBlock, hz, Run.pure]

/-- The run of `TraceBlock` on a non-empty block. -/
theorem TraceBlock_nonempty (b : Backend) (height : Int) (config : Option TraceConfig)
    (block : ResultBlock) (hne : block.Block.Txs ≠ []) :
    TraceBlock b height config block =
      if b.isNetworkClient = false then ⟨[], .error .invalidRpcClient⟩
      else
        match b.ConsensusParams block.Block.Height with
        | .error e => ⟨[.ConsensusParams block.Block.Height], .error e⟩
        | .ok maxGas =>
          let req : QueryTraceBlockRequest :=
            { Txs := specBlockPayloads b.TxDecoder block.Block.Txs
              TraceConfig := config
              BlockNumber := block.Block.Height
              BlockTime := block.Block.Time
              BlockHash := block.BlockIDHash
              ProposerAddress := block.Block.ProposerAddress
              ChainId := wrapInt64 b.chainID
              BlockMaxGas := maxGas }
          let h := max (wrapInt64 (height - 1)) 1
          ⟨[.ConsensusParams block.Block.Height, .TraceBlock h req],
            match b.TraceBlock h req with
            | .error e => .error e
            | .ok data =>
              match b.unmarshalResults data with
              | .error e => .error e
              | .ok res => .ok res⟩ := by
  have hl : block.Block.Txs.length ≠ 0 := by
    intro h; exact hne (List.length_eq_zero.mp h)
  unfold TraceBlock
  simp only [bind, Run.bind, Run.call, hl, if_false, appendBlockEthMsgs_all]
  cases hn : b.isNetworkClient with
  | false => simp [Run.fail]
  | true =>
    cases hcp : b.ConsensusParams block.Block.Height with
    | error e => simp
    | ok maxGas =>
      simp only [Bool.not_true, Bool.false_eq_true, if_false, List.cons_append, List.nil_append]
      generalize QueryTraceBlockRequest.mk _ _ _ _ _ _ _ _ = req
      cases hT : b.TraceBlock (max (wrapInt64 (height - 1)) 1) req with
      | error e => simp
      | ok data =>
        cases hu : b.unmarshalResults data with
        | error e => simp [Run.fail, hu]
        | ok res => simp [Run.pure, hu]

/-- Every `TraceBlock` call recorded by a run carries the snapshot height
`max(height-1, 1)` and the payload list of the specification. -/
theorem TraceBlock_traceBlock_mem (b : Backend) (height : Int) (config : Option TraceConfig)
    (block : ResultBlock) (h : Int) (r : QueryTraceBlockRequest)
    (hmem : Call.TraceBlock h r ∈ (TraceBlock b height config block).calls) :
    h = max (wrapInt64 (height - 1)) 1 ∧
      r.Txs = specBlockPayloads b.TxDecoder block.Block.Txs := by
  by_cases hz : block.Block.Txs = []
  · rw [TraceBlock_empty b height config block hz] at hmem
    simp at hmem
  · rw [TraceBlock_nonempty b height config block hz] at hmem
    cases hn : b.isNetworkClient with
    | false => simp [hn] at hmem
    | true =>
      cases hcp : b.ConsensusParams block.Block.Height with
      | error e => simp [hn, hcp] at hmem
      | ok maxGas =>
        simp only [hn, hcp, Bool.true_eq_false, if_false, List.mem_cons, reduceCtorEq,
          false_or, Call.TraceBlock.injEq, List.mem_nil_iff, or_false] at hmem
        rcases hmem with ⟨rfl, rfl⟩
        exact ⟨rfl, rfl⟩

/-- Claim C2.  For a non-empty block, every trace-block request that
`TraceBlock` sends carries as `Txs` the Ethereum-style messages of the
decodable envelopes of the block, in commit order and message order; whatever
the codec does (no hypothesis on it), with a network client and available
consensus parameters the run consists of the parameter lookup and one engine
call and ends as the engine and the response decoder decide, so an envelope
that fails to decode never makes it fail.  The request type has no predecessor
field. -/
theorem TraceBlock_payloads (b : Backend) (height : Int) (config : Option TraceConfig)
    (block : ResultBlock) (hne : block.Block.Txs ≠ []) :
    (∀ h r, Call.TraceBlock h r ∈ (TraceBlock b height config block).calls →
      r.Txs = specBlockPayloads b.TxDecoder block.Block.Txs) ∧
    (∀ maxGas, b.isNetworkClient = true →
      b.ConsensusParams block.Block.Height = .ok maxGas →
      ∃ h r, r.Txs = specBlockPayloads b.TxDecoder block.Block.Txs ∧
        (TraceBlock b height config block).calls =
          [.ConsensusParams block.Block.Height, .TraceBlock h r] ∧
        (TraceBlock b height config block).out =
          match b.TraceBlock h r with
          | .error e => .error e
          | .ok data =>
            match b.unmarshalResults data with
            | .error e => .error e
            | .ok res => .ok res) := by
  refine ⟨fun h r hmem => (TraceBlock_traceBlock_mem b height config block h r hmem).2,
    fun maxGas hn hcp => ?_⟩
  rw [TraceBlock_nonempty b height config block hne]
  simp only [hn, hcp, Bool.true_eq_false, if_false]
  exact ⟨_, _, rfl, rfl, rfl⟩

/-- Claim C2 on the blocks `[A, B (native), C]` and `[A, undecodable, B, C]`:
both yield the payload list `[A, C]`, and the run ends with a value. -/
theorem TraceBlock_payloads_witness :
    exBlockBad.Block.Txs ≠ [] ∧
    specBlockPayloads exDecoder exBlock.Block.Txs = [msgA, msgC] ∧
    specBlockPayloads exDecoder exBlockBad.Block.Txs = [msgA, msgC] ∧
    (TraceBlock (exBackend ⟨5, 2, 0⟩ exBlockBad) 5 none exBlockBad).out = .ok [] ∧
    ((∀ h r, Call.TraceBlock h r ∈
        (TraceBlock (exBackend ⟨5, 2, 0⟩ exBlockBad) 5 none exBlockBad).calls →
      r.Txs = specBlockPayloads exDecoder exBlockBad.Block.Txs) ∧
    (∀ maxGas, true = true → (Except.ok 30000000 : Except Err Int) = .ok maxGas →
      ∃ h r, r.Txs = specBlockPayloads exDecoder exBlockBad.Block.Txs ∧
        (TraceBlock (exBackend ⟨5, 2, 0⟩ exBlockBad) 5 none exBlockBad).calls =
          [.ConsensusParams 5, .TraceBlock h r] ∧
        (TraceBlock (exBackend ⟨5, 2, 0⟩ exBlockBad) 5 none exBlockBad).out = .ok [])) :=
  ⟨by decide, by decide, by decide, rfl,
    TraceBlock_payloads (exBackend ⟨5, 2, 0⟩ exBlockBad) 5 none exBlockBad (by decide)⟩


/-! ## Snapshot height -/

/-- On a non-empty block with a network client and available consensus
parameters, `TraceBlock` calls the replay engine exactly once. -/
theorem TraceBlock_engineCalls (b : Backend) (height : Int) (config : Option TraceConfig)
    (block : ResultBlock) (maxGas : Int) (hne : block.Block.Txs ≠ [])
    (hn : b.isNetworkClient = true)
    (hcp : b.ConsensusParams block.Block.Height = .ok maxGas) :
    (TraceBlock b height config block).engineCalls =
      [Call.TraceBlock (max (wrapInt64 (height - 1)) 1)
        { Txs := specBlockPayloads b.TxDecoder block.Block.Txs
          TraceConfig := config
          BlockNumber := block.Block.Height
          BlockTime := block.Block.Time
          BlockHash := block.BlockIDHash
          ProposerAddress := block.Block.ProposerAddress
          ChainId := wrapInt64 b.chainID
          BlockMaxGas := maxGas }] := by
  rw [TraceBlock_nonempty b height config block hne]
  simp [hn, hcp, Run.engineCalls, Call.isEngine]

/-- Claim C3.  For every target height `H ≥ 0` (an `int64`), every replay-engine
call of `TraceTransaction` for a transaction located at height `H` and of
`TraceBlock` for block number `H` carries the snapshot height
`resolve H = max(H-1, 1)`, which is at least 1; and the calls do happen: once
for a located transaction with in-range indices, an Ethereum-style target and
available consensus parameters, once for a non-empty block. -/
theorem snapshot_height_resolve (H : Int) (h0 : 0 ≤ H) (h63 : H < 2 ^ 63) :
    (∀ (b : Backend) (hash : Hash) (config : Option TraceConfig) (loc : TxResult),
      b.GetTxByEthHash hash = .ok loc → loc.Height = H →
      ∀ h r, Call.TraceTx h r ∈ (TraceTransaction b hash config).calls →
        h = resolve H ∧ 1 ≤ h ∧ h ≠ 0) ∧
    (∀ (b : Backend) (config : Option TraceConfig) (block : ResultBlock),
      ∀ h r, Call.TraceBlock h r ∈ (TraceBlock b H config block).calls →
        h = resolve H ∧ 1 ≤ h ∧ h ≠ 0) ∧
    (∀ (b : Backend) (hash : Hash) (config : Option TraceConfig) (loc : TxResult)
      (blk : ResultBlock) (txBz : Bytes) (tx : Tx) (m : MsgEthereumTx) (maxGas : Int),
      b.GetTxByEthHash hash = .ok loc → loc.Height = H → H ≠ 0 →
      b.TendermintBlockByNumber loc.Height = .ok blk →
      blk.Block.Txs.length ≤ MaxUint32 →
      blk.Block.Txs[loc.TxIndex]? = some txBz →
      b.TxDecoder txBz = .ok tx →
      tx.GetMsgs[loc.MsgIndex]? = some (.eth m) →
      b.isNetworkClient = true →
      b.ConsensusParams blk.Block.Height = .ok maxGas →
      ∃ r, (TraceTransaction b hash config).engineCalls = [Call.TraceTx (resolve H) r]) ∧
    (∀ (b : Backend) (config : Option TraceConfig) (block : ResultBlock) (maxGas : Int),
      block.Block.Txs ≠ [] → b.isNetworkClient = true →
      b.ConsensusParams block.Block.Height = .ok maxGas →
      ∃ r, (TraceBlock b H config block).engineCalls = [Call.TraceBlock (resolve H) r]) := by
  have hres : ∀ h : Int, h = resolve H → h = resolve H ∧ 1 ≤ h ∧ h ≠ 0 := by
    intro h hh
    have h1 := one_le_resolve H
    refine ⟨hh, by omega, by omega⟩
  refine ⟨?_, ?_, ?_, ?_⟩
  · intro b hash config loc hloc hHeq h r hmem
    apply hres
    rcases TraceTransaction_engine_inv b hash config with hno | ⟨loc', blk, txBz, tx, hloc',
      hH, hblk, hlen, hi, hdec, hj⟩
    · have := hno _ hmem
      simp [Call.isEngine] at this
    · have hEq : loc' = loc := by
        rw [hloc] at hloc'
        exact (Except.ok.inj hloc').symm
      subst hEq
      rw [(TraceTransaction_traceTx_mem b hash config loc' blk txBz tx hloc hH hblk hlen hi hdec
        hj h r hmem).1, hHeq, max_wrapInt64_pred H h0 h63]
  · intro b config block h r hmem
    apply hres
    rw [(TraceBlock_traceBlock_mem b H config block h r hmem).1, max_wrapInt64_pred H h0 h63]
  · intro b hash config loc blk txBz tx m maxGas hloc hHeq hH hblk hlen hi hdec hm hn hcp
    have e := TraceTransaction_engineCalls b hash config loc blk txBz tx m maxGas hloc
      (by rw [hHeq]; exact hH) hblk hlen hi hdec hm hn hcp
    rw [hHeq, max_wrapInt64_pred H h0 h63] at e
    exact ⟨_, e⟩
  · intro b config block maxGas hne hn hcp
    have e := TraceBlock_engineCalls b H config block maxGas hne hn hcp
    rw [max_wrapInt64_pred H h0 h63] at e
    exact ⟨_, e⟩

/-- Claim C3 at heights 5 and 1: the engine is called with snapshot heights
`resolve 5 = 4` and `resolve 1 = 1`. -/
theorem snapshot_height_resolve_witness :
    ((0 : Int) ≤ 5 ∧ (5 : Int) < 2 ^ 63) ∧ resolve 5 = 4 ∧ resolve 1 = 1 ∧ resolve 0 = 1 ∧
    (∃ r, (TraceTransaction (exBackend ⟨5, 2, 0⟩ exBlock) [] none).engineCalls =
      [Call.TraceTx (resolve 5) r]) ∧
    (∃ r, (TraceBlock (exBackend ⟨5, 2, 0⟩ exBlock) 5 none exBlock).engineCalls =
      [Call.TraceBlock (resolve 5) r]) :=
  ⟨⟨by decide, by decide⟩, by decide, by decide, by decide,
    (snapshot_height_resolve 5 (by decide) (by decide)).2.2.1 (exBackend ⟨5, 2, 0⟩ exBlock) []
      none ⟨5, 2, 0⟩ exBlock [3] ⟨[.eth msgC]⟩ msgC 30000000 rfl rfl (by decide) rfl (by decide)
      rfl rfl rfl rfl rfl,
    (snapshot_height_resolve 5 (by decide) (by decide)).2.2.2 (exBackend ⟨5, 2, 0⟩ exBlock) none
      exBlock 30000000 (by decide) rfl rfl⟩


/-! ## Speculative call trace -/

/-- The run of `TraceCall` once the context block is fetched. -/
theorem TraceCall_found (b : Backend) (txArgs : JsonTxArgs) (contextBlock : Int)
    (config : Option TraceConfig) (blk : ResultBlock)
    (hblk : b.TendermintBlockByNumber contextBlock = .ok blk) :
    TraceCall b txArgs contextBlock config =
      if b.isNetworkClient = false then
        ⟨[.TendermintBlockByNumber contextBlock], .error .invalidRpcClient⟩
      else
        match b.ConsensusParams blk.Block.Height with
        | .error e => ⟨[.TendermintBlockByNumber contextBlock,
            .ConsensusParams blk.Block.Height], .error e⟩
        | .ok maxGas =>
          let req : QueryTraceTxRequest :=
            { Msg := txArgs.ToMsgEthTx
              TraceConfig := config
              Predecessors := []
              BlockNumber := blk.Block.Height
              BlockTime := blk.Block.Time
              BlockHash := blk.BlockIDHash
              ProposerAddress := blk.Block.ProposerAddress
              ChainId := wrapInt64 b.chainID
              BlockMaxGas := maxGas }
          let h := b.BlockNumberInt64 contextBlock
          ⟨[.TendermintBlockByNumber contextBlock, .ConsensusParams blk.Block.Height,
            .TraceCall h req],
            match b.TraceCall h req with
            | .error e => .error e
            | .ok data =>
              match b.unmarshalRaw data with
              | .error e => .error e
              | .ok res => .ok res⟩ := by
  unfold TraceCall
  simp only [bind, Run.bind, Run.call, hblk]
  cases hn : b.isNetworkClient with
  | false => simp [Run.fail]
  | true =>
    cases hcp : b.ConsensusParams blk.Block.Height with
    | error e => simp
    | ok maxGas =>
      cases config <;>
      · simp only [Option.isSome_none, Option.isSome_some, Bool.not_true,
          Bool.false_eq_true, if_false, if_true, List.cons_append, List.nil_append]
        generalize QueryTraceTxRequest.mk txArgs.ToMsgEthTx _ _ _ _ _ _ _ _ = req
        cases hT : b.TraceCall (b.BlockNumberInt64 contextBlock) req with
        | error e => simp
        | ok data =>
          cases hu : b.unmarshalRaw data with
          | error e => simp [Run.fail, hu]
          | ok res => simp [Run.pure, hu]

/-- Every `TraceCall` request recorded by a run has an empty predecessor list,
and its snapshot height is `contextBlock.Int64()`, whatever that conversion is:
the rule `max(H-1, 1)` is not applied on this path. -/
theorem TraceCall_traceCall_mem (b : Backend) (txArgs : JsonTxArgs) (contextBlock : Int)
    (config : Option TraceConfig) (h : Int) (r : QueryTraceTxRequest)
    (hmem : Call.TraceCall h r ∈ (TraceCall b txArgs contextBlock config).calls) :
    h = b.BlockNumberInt64 contextBlock ∧ r.Predecessors = [] ∧ r.Msg = txArgs.ToMsgEthTx := by
  cases hblk : b.TendermintBlockByNumber contextBlock with
  | error e => simp [TraceCall, bind, Run.bind, Run.call, hblk] at hmem
  | ok blk =>
    rw [TraceCall_found b txArgs contextBlock config blk hblk] at hmem
    cases hn : b.isNetworkClient with
    | false => simp [hn] at hmem
    | true =>
      cases hcp : b.ConsensusParams blk.Block.Height with
      | error e => simp [hn, hcp] at hmem
      | ok maxGas =>
        simp only [hn, hcp, Bool.true_eq_false, if_false, List.mem_cons, reduceCtorEq,
          false_or, Call.TraceCall.injEq, List.mem_nil_iff, or_false] at hmem
        rcases hmem with ⟨rfl, rfl⟩
        exact ⟨rfl, rfl, rfl⟩

/-- Claim C4, evaluated at context height 5 with `rpc.BlockNumber.Int64` the
plain conversion of a positive block number: the request has no predecessors,
but the snapshot height sent to the replay engine is 5, whereas the rule used by
`TraceTransaction` and `TraceBlock` gives `resolve 5 = 4`, the final state of
the parent block that the doc comment of `TraceCall` names. -/
theorem TraceCall_snapshot_height_is_context_block :
    (TraceCall (exBackend ⟨5, 2, 0⟩ exBlock) ⟨msgC⟩ 5 none).engineCalls =
      [Call.TraceCall 5
        { Msg := msgC
          TraceConfig := none
          Predecessors := []
          BlockNumber := 5
          BlockTime := 1700000000
          BlockHash := [171]
          ProposerAddress := [9]
          ChainId := 7210
          BlockMaxGas := 30000000 }] ∧
    resolve 5 = 4 ∧
    (TraceBlock (exBackend ⟨5, 2, 0⟩ exBlock) 5 none exBlock).engineCalls.map
        (fun c => match c with | .TraceBlock h _ => h | _ => 0) = [4] ∧
    ¬ ∃ r, Call.TraceCall (resolve 5) r ∈
      (TraceCall (exBackend ⟨5, 2, 0⟩ exBlock) ⟨msgC⟩ 5 none).calls := by
  refine ⟨by decide, by decide, by decide, ?_⟩
  rintro ⟨r, hr⟩
  have h := (TraceCall_traceCall_mem _ _ _ _ _ _ hr).1
  revert h
  decide

/-! ## Index checks of `TraceTransaction` -/

/-- Claim C5, evaluated at `TxIndex = 3` on the three-transaction block
`[A, B, C]`: the check `txsLen < transaction.TxIndex` passes although the index
is out of range, no "transaction not included in block" error is returned, and
the run panics at `blk.Block.Txs[transaction.TxIndex]`; only `TxIndex = 4` and
above are rejected. -/
theorem TraceTransaction_txIndex_at_length_panics :
    exBlock.Block.Txs.length = 3 ∧
    ¬ (toUint32 exBlock.Block.Txs.length < (3 : Nat)) ∧
    TraceTransaction (exBackend ⟨5, 3, 0⟩ exBlock) [] none =
      ⟨[.GetTxByEthHash [], .TendermintBlockByNumber 5], .panic "index out of range"⟩ ∧
    TraceTransaction (exBackend ⟨5, 4, 0⟩ exBlock) [] none =
      ⟨[.GetTxByEthHash [], .TendermintBlockByNumber 5], .error (.txNotIncludedInBlock 5)⟩ := by
  decide

/-- Claim C6, evaluated on the block `[A, B, C]` for the one-message envelope
`C` (block position 2): with `MsgIndex = 1` the run panics at
`tx.GetMsgs()[transaction.MsgIndex]`, with `MsgIndex = 2` at
`tx.GetMsgs()[:int(transaction.MsgIndex)]`; no error is returned, while
`MsgIndex = 0` is traced. -/
theorem TraceTransaction_msgIndex_out_of_range_panics :
    (exDecoder [3]).map (fun tx => tx.GetMsgs.length) = .ok 1 ∧
    TraceTransaction (exBackend ⟨5, 2, 1⟩ exBlock) [] none =
      ⟨[.GetTxByEthHash [], .TendermintBlockByNumber 5], .panic "index out of range"⟩ ∧
    TraceTransaction (exBackend ⟨5, 2, 2⟩ exBlock) [] none =
      ⟨[.GetTxByEthHash [], .TendermintBlockByNumber 5],
        .panic "slice bounds out of range"⟩ ∧
    (TraceTransaction (exBackend ⟨5, 2, 0⟩ exBlock) [] none).out = .ok [123, 125] := by
  refine ⟨rfl, by decide, by decide, by decide⟩

/-- Claim C7.  When the transaction located for the hash has height 0,
`TraceTransaction` returns the error "genesis is not traceable" and no result;
its only collaborator call is the lookup of the hash: the block store is not
asked for a block and the replay engine is not called. -/
theorem TraceTransaction_genesis_not_traceable (b : Backend) (hash : Hash)
    (config : Option TraceConfig) (loc : TxResult)
    (hloc : b.GetTxByEthHash hash = .ok loc) (hH : loc.Height = 0) :
    (TraceTransaction b hash config).out = .error .genesisNotTraceable ∧
    (TraceTransaction b hash config).calls = [.GetTxByEthHash hash] ∧
    (∀ c ∈ (TraceTransaction b hash config).calls,
      c.isBlockStore = false ∧ c.isEngine = false) := by
  rw [TraceTransaction_genesis b hash config loc hloc hH]
  simp [Call.isBlockStore, Call.isEngine]

/-- Claim C7 on a backend that locates every hash at height 0. -/
theorem TraceTransaction_genesis_not_traceable_witness :
    ((exBackend ⟨0, 0, 0⟩ exBlock).GetTxByEthHash [7] = .ok ⟨0, 0, 0⟩ ∧ (0 : Int) = 0) ∧
    (TraceTransaction (exBackend ⟨0, 0, 0⟩ exBlock) [7] none).out =
      .error .genesisNotTraceable ∧
    (TraceTransaction (exBackend ⟨0, 0, 0⟩ exBlock) [7] none).calls = [.GetTxByEthHash [7]] ∧
    (∀ c ∈ (TraceTransaction (exBackend ⟨0, 0, 0⟩ exBlock) [7] none).calls,
      c.isBlockStore = false ∧ c.isEngine = false) :=
  ⟨⟨rfl, rfl⟩,
    TraceTransaction_genesis_not_traceable (exBackend ⟨0, 0, 0⟩ exBlock) [7] none ⟨0, 0, 0⟩
      rfl rfl⟩


/-! ## Signature verification decorator -/

namespace EthSigVerificationDecorator

/-- The loop over messages that are all Ethereum-style payloads with a
recoverable sender: every `From` is written, no error. -/
theorem verifyMsgs_all_recover (k : EVMKeeper) (signer : Signer) (msgs : List Msg)
    (hall : ∀ msg ∈ msgs, ∃ m addr, msg = .eth m ∧ k.Sender signer m = .ok addr) :
    verifyMsgs k signer msgs = (msgs.map (withRecoveredSender k signer), none) := by
  induction msgs with
  | nil => rfl
  | cons msg rest ih =>
    obtain ⟨m, addr, rfl, hs⟩ := hall msg (List.mem_cons_self _ _)
    have ih' := ih (fun x hx => hall x (List.mem_cons_of_mem _ hx))
    simp [verifyMsgs, withRecoveredSender, hs, ih']

/-- The loop stops at the first non-Ethereum message when everything before
it recovers. -/
theorem verifyMsgs_other (k : EVMKeeper) (signer : Signer) (pre post : List Msg)
    (typeURL : String)
    (hpre : ∀ msg ∈ pre, ∃ m addr, msg = .eth m ∧ k.Sender signer m = .ok addr) :
    verifyMsgs k signer (pre ++ .other typeURL :: post) =
      (pre.map (withRecoveredSender k signer) ++ .other typeURL :: post,
        some (.ErrUnknownRequest typeURL)) := by
  induction pre with
  | nil => rfl
  | cons msg rest ih =>
    obtain ⟨m, addr, rfl, hs⟩ := hpre msg (List.mem_cons_self _ _)
    have ih' := ih (fun x hx => hpre x (List.mem_cons_of_mem _ hx))
    simp [verifyMsgs, withRecoveredSender, hs, ih']

/-- Claim C8.  When every message of the envelope is an Ethereum-style payload
whose signature recovers under the signer of the context, `AnteHandle` writes
into each payload's `From` the hex form of the address recovered from that
payload (whatever `From` held), calls `next` once with the unchanged context,
the envelope and the `simulate` flag, and returns what `next` returns; for
both values of `simulate`. -/
theorem AnteHandle_sets_sender (k : EVMKeeper) (ctx : Context) (tx : Tx) (simulate : Bool)
    (next : AnteHandler)
    (hall : ∀ msg ∈ tx.GetMsgs, ∃ m addr, msg = .eth m ∧
      k.Sender (signerOf k ctx) m = .ok addr) :
    (AnteHandle k ctx tx simulate next).tx.GetMsgs =
      tx.GetMsgs.map (withRecoveredSender k (signerOf k ctx)) ∧
    (∀ (i : Nat) (m : MsgEthereumTx), tx.GetMsgs[i]? = some (Msg.eth m) →
      ∃ addr : Address, k.Sender (signerOf k ctx) m = .ok addr ∧
        (AnteHandle k ctx tx simulate next).tx.GetMsgs[i]? =
          some (.eth { m with From := k.Hex addr })) ∧
    (AnteHandle k ctx tx simulate next).nextCalls =
      [(ctx, (AnteHandle k ctx tx simulate next).tx, simulate)] ∧
    ((AnteHandle k ctx tx simulate next).newCtx, (AnteHandle k ctx tx simulate next).err) =
      next ctx (AnteHandle k ctx tx simulate next).tx simulate := by
  have hv := verifyMsgs_all_recover k (signerOf k ctx) tx.GetMsgs hall
  have hA : AnteHandle k ctx tx simulate next =
      { newCtx := (next ctx ⟨tx.GetMsgs.map (withRecoveredSender k (signerOf k ctx))⟩ simulate).1
        err := (next ctx ⟨tx.GetMsgs.map (withRecoveredSender k (signerOf k ctx))⟩ simulate).2
        tx := ⟨tx.GetMsgs.map (withRecoveredSender k (signerOf k ctx))⟩
        nextCalls := [(ctx, ⟨tx.GetMsgs.map (withRecoveredSender k (signerOf k ctx))⟩,
          simulate)] } := by
    unfold AnteHandle
    unfold signerOf at hv
    simp only [hv]
    rfl
  rw [hA]
  refine ⟨rfl, ?_, rfl, rfl⟩
  intro i m hi
  have hmem : Msg.eth m ∈ tx.GetMsgs := List.getElem?_mem hi
  obtain ⟨m', addr, hm', hs⟩ := hall _ hmem
  cases hm'
  refine ⟨addr, hs, ?_⟩
  simp [List.getElem?_map, hi, withRecoveredSender, hs]

/-- Claim C8 on the envelope `[A, C]`, `C` arriving with a stale `From`. -/
theorem AnteHandle_sets_sender_witness :
    (∀ msg ∈ [Msg.eth msgA, Msg.eth ⟨[3], "0xc", "0xBb"⟩], ∃ m addr, msg = .eth m ∧
      exKeeper.Sender (signerOf exKeeper exCtx) m = .ok addr) ∧
    (AnteHandle exKeeper exCtx ⟨[.eth msgA, .eth ⟨[3], "0xc", "0xBb"⟩]⟩ true exNext).tx =
      ⟨[.eth ⟨[1], "0xa", "0xBb"⟩, .eth ⟨[3], "0xc", "0xCc"⟩]⟩ ∧
    (AnteHandle exKeeper exCtx ⟨[.eth msgA, .eth ⟨[3], "0xc", "0xBb"⟩]⟩ true exNext).nextCalls =
      [(exCtx, (AnteHandle exKeeper exCtx ⟨[.eth msgA, .eth ⟨[3], "0xc", "0xBb"⟩]⟩ true
        exNext).tx, true)] :=
  have hall : ∀ msg ∈ [Msg.eth msgA, Msg.eth ⟨[3], "0xc", "0xBb"⟩], ∃ m addr, msg = .eth m ∧
      exKeeper.Sender (signerOf exKeeper exCtx) m = .ok addr := by
    intro msg hmsg
    simp only [List.mem_cons, List.mem_singleton, List.mem_nil_iff, or_false] at hmsg
    rcases hmsg with rfl | rfl
    · exact ⟨_, [187], rfl, rfl⟩
    · exact ⟨_, [204], rfl, rfl⟩
  ⟨hall, by decide,
    (AnteHandle_sets_sender exKeeper exCtx ⟨[.eth msgA, .eth ⟨[3], "0xc", "0xBb"⟩]⟩ true exNext
      hall).2.2.1⟩

/-- Claim C9.  When the first message that fails a check is not an
Ethereum-style payload (everything before it is one whose signature recovers;
in particular when the sole message is not Ethereum-style), `AnteHandle`
returns the unknown-request error with the original context and makes no call
to `next`. -/
theorem AnteHandle_rejects_non_ethereum (k : EVMKeeper) (ctx : Context) (simulate : Bool)
    (next : AnteHandler) (pre post : List Msg) (typeURL : String)
    (hpre : ∀ msg ∈ pre, ∃ m addr, msg = .eth m ∧ k.Sender (signerOf k ctx) m = .ok addr) :
    (AnteHandle k ctx ⟨pre ++ .other typeURL :: post⟩ simulate next).err =
      some (.ErrUnknownRequest typeURL) ∧
    (AnteHandle k ctx ⟨pre ++ .other typeURL :: post⟩ simulate next).newCtx = ctx ∧
    (AnteHandle k ctx ⟨pre ++ .other typeURL :: post⟩ simulate next).nextCalls = [] ∧
    (AnteHandle k ctx ⟨[.other typeURL]⟩ simulate next).err =
      some (.ErrUnknownRequest typeURL) ∧
    (AnteHandle k ctx ⟨[.other typeURL]⟩ simulate next).newCtx = ctx ∧
    (AnteHandle k ctx ⟨[.other typeURL]⟩ simulate next).nextCalls = [] := by
  have hv := verifyMsgs_other k (signerOf k ctx) pre post typeURL hpre
  unfold signerOf at hv
  refine ⟨?_, ?_, ?_, rfl, rfl, rfl⟩ <;>
  · unfold AnteHandle
    simp only [hv]

/-- Claim C9 on the envelopes `[A, MsgSend]` and `[MsgSend]`. -/
theorem AnteHandle_rejects_non_ethereum_witness :
    (∀ msg ∈ [Msg.eth msgA], ∃ m addr, msg = .eth m ∧
      exKeeper.Sender (signerOf exKeeper exCtx) m = .ok addr) ∧
    (AnteHandle exKeeper exCtx ⟨[.eth msgA, .other "/cosmos.bank.v1beta1.MsgSend"]⟩ false
      exNext).err = some (.ErrUnknownRequest "/cosmos.bank.v1beta1.MsgSend") ∧
    (AnteHandle exKeeper exCtx ⟨[.eth msgA, .other "/cosmos.bank.v1beta1.MsgSend"]⟩ false
      exNext).newCtx = exCtx ∧
    (AnteHandle exKeeper exCtx ⟨[.eth msgA, .other "/cosmos.bank.v1beta1.MsgSend"]⟩ false
      exNext).nextCalls = [] ∧
    (AnteHandle exKeeper exCtx ⟨[.other "/cosmos.bank.v1beta1.MsgSend"]⟩ false exNext).err =
      some (.ErrUnknownRequest "/cosmos.bank.v1beta1.MsgSend") ∧
    (AnteHandle exKeeper exCtx ⟨[.other "/cosmos.bank.v1beta1.MsgSend"]⟩ false exNext).newCtx =
      exCtx ∧
    (AnteHandle exKeeper exCtx ⟨[.other "/cosmos.bank.v1beta1.MsgSend"]⟩ false
      exNext).nextCalls = [] :=
  have hpre : ∀ msg ∈ [Msg.eth msgA], ∃ m addr, msg = .eth m ∧
      exKeeper.Sender (signerOf exKeeper exCtx) m = .ok addr := by
    intro msg hmsg
    simp only [List.mem_singleton] at hmsg
    subst hmsg
    exact ⟨_, [187], rfl, rfl⟩
  ⟨hpre, AnteHandle_rejects_non_ethereum exKeeper exCtx false exNext [.eth msgA] []
    "/cosmos.bank.v1beta1.MsgSend" hpre⟩

/-- Claim C10, evaluated on a payload signed by the address with hex form
`0xBb` whose `From` field already holds `0xCc`: `AnteHandle` makes no
comparison, overwrites `From` with `0xBb`, calls `next` and returns its
result without error. -/
theorem AnteHandle_overwrites_mismatched_sender :
    exKeeper.Sender (signerOf exKeeper exCtx) ⟨[1], "0xa", "0xCc"⟩ = .ok [187] ∧
    exKeeper.Hex [187] = "0xBb" ∧
    AnteHandle exKeeper exCtx ⟨[.eth ⟨[1], "0xa", "0xCc"⟩]⟩ false exNext =
      { newCtx := { exCtx with ChainID := "next" }
        err := none
        tx := ⟨[.eth ⟨[1], "0xa", "0xBb"⟩]⟩
        nextCalls := [(exCtx, ⟨[.eth ⟨[1], "0xa", "0xBb"⟩]⟩, false)] } :=
  ⟨rfl, by decide, by decide⟩

end EthSigVerificationDecorator


/-! ## Gas-accounting override decorator -/

namespace EthSetupContextDecorator

/-- Claim C11.  For a transaction whose type implements `GasTx`, `AnteHandle`
calls `next` once, with the `simulate` flag, the same transaction and the
context in which the gas meter is a fresh infinite meter and both the KV and
the transient-KV gas configurations are all zero, every other field as in the
input context, and returns what `next` returns.  For a transaction whose type
does not implement `GasTx` it returns the original context with the
invalid-type error and makes no call to `next`. -/
theorem AnteHandle_setup_ctx (assertGasTx : Tx → Option Nat) (ctx : Context) (tx : Tx)
    (simulate : Bool) (next : AnteHandler) :
    (∀ gas, assertGasTx tx = some gas →
      (AnteHandle assertGasTx ctx tx simulate next).nextCalls =
        [({ BlockHeight := ctx.BlockHeight
            BlockTime := ctx.BlockTime
            ChainID := ctx.ChainID
            gasMeter := .infinite 0
            kvGasConfig := ⟨0, 0, 0, 0, 0, 0, 0⟩
            transientKVGasConfig := ⟨0, 0, 0, 0, 0, 0, 0⟩ }, tx, simulate)] ∧
      ((AnteHandle assertGasTx ctx tx simulate next).newCtx,
        (AnteHandle assertGasTx ctx tx simulate next).err) =
        next { BlockHeight := ctx.BlockHeight
               BlockTime := ctx.BlockTime
               ChainID := ctx.ChainID
               gasMeter := .infinite 0
               kvGasConfig := ⟨0, 0, 0, 0, 0, 0, 0⟩
               transientKVGasConfig := ⟨0, 0, 0, 0, 0, 0, 0⟩ } tx simulate ∧
      (AnteHandle assertGasTx ctx tx simulate next).tx = tx) ∧
    (assertGasTx tx = none →
      (AnteHandle assertGasTx ctx tx simulate next).newCtx = ctx ∧
      (AnteHandle assertGasTx ctx tx simulate next).err = some .ErrInvalidType ∧
      (AnteHandle assertGasTx ctx tx simulate next).nextCalls = []) := by
  refine ⟨fun gas hgas => ?_, fun hnone => ?_⟩
  · unfold AnteHandle
    rw [hgas]
    exact ⟨rfl, rfl, rfl⟩
  · unfold AnteHandle
    rw [hnone]
    exact ⟨rfl, rfl, rfl⟩

/-- Claim C11 on the envelope `[A]` (a `GasTx`) and on the empty envelope (not
a `GasTx`), from a context with a basic meter and non-zero gas costs. -/
theorem AnteHandle_setup_ctx_witness :
    (exAssertGasTx ⟨[.eth msgA]⟩ = some 21000 ∧ exAssertGasTx ⟨[]⟩ = none) ∧
    ((AnteHandle exAssertGasTx exCtx ⟨[.eth msgA]⟩ true exNext).nextCalls =
        [({ BlockHeight := 5
            BlockTime := 1700000000
            ChainID := "nibiru-7210"
            gasMeter := .infinite 0
            kvGasConfig := ⟨0, 0, 0, 0, 0, 0, 0⟩
            transientKVGasConfig := ⟨0, 0, 0, 0, 0, 0, 0⟩ }, ⟨[.eth msgA]⟩, true)] ∧
      ((AnteHandle exAssertGasTx exCtx ⟨[.eth msgA]⟩ true exNext).newCtx,
        (AnteHandle exAssertGasTx exCtx ⟨[.eth msgA]⟩ true exNext).err) =
        ({ BlockHeight := 5
           BlockTime := 1700000000
           ChainID := "next"
           gasMeter := .infinite 0
           kvGasConfig := ⟨0, 0, 0, 0, 0, 0, 0⟩
           transientKVGasConfig := ⟨0, 0, 0, 0, 0, 0, 0⟩ }, none) ∧
      (AnteHandle exAssertGasTx exCtx ⟨[.eth msgA]⟩ true exNext).tx = ⟨[.eth msgA]⟩) ∧
    ((AnteHandle exAssertGasTx exCtx ⟨[]⟩ false exNext).newCtx = exCtx ∧
      (AnteHandle exAssertGasTx exCtx ⟨[]⟩ false exNext).err = some .ErrInvalidType ∧
      (AnteHandle exAssertGasTx exCtx ⟨[]⟩ false exNext).nextCalls = []) :=
  ⟨⟨rfl, rfl⟩,
    (AnteHandle_setup_ctx exAssertGasTx exCtx ⟨[.eth msgA]⟩ true exNext).1 21000 rfl,
    (AnteHandle_setup_ctx exAssertGasTx exCtx ⟨[]⟩ false exNext).2 rfl⟩

end EthSetupContextDecorator


/-! ## Result array and decode failures of the whole-block trace -/

/-- Claim C12, evaluated on the block `[A, B (native), C]` with a replay engine
that answers with one result per payload it was sent (`A` and `C`): the run
succeeds and returns two items for three transactions, the pre-sized slice
being replaced by what `json.Unmarshal` decodes.  The empty block gives an
empty array and no call at all. -/
theorem TraceBlock_result_length_from_response :
    exBlock.Block.Txs.length = 3 ∧
    (TraceBlock (exBackendTwoResults exBlock) 5 none exBlock).engineCalls.map
        (fun c => match c with | .TraceBlock _ r => r.Txs | _ => []) = [[msgA, msgC]] ∧
    (TraceBlock (exBackendTwoResults exBlock) 5 none exBlock).out =
      .ok [some ⟨"trace of A", ""⟩, some ⟨"trace of C", ""⟩] ∧
    TraceBlock (exBackendTwoResults exBlockEmpty) 5 none exBlockEmpty = ⟨[], .ok []⟩ := by
  decide

theorem appendBlockEthMsgs_acc (dec : Bytes → Except Err Tx) (acc : List MsgEthereumTx)
    (txs : List Bytes) :
    appendBlockEthMsgs dec acc txs = acc ++ appendBlockEthMsgs dec [] txs := by
  induction txs generalizing acc with
  | nil => simp [appendBlockEthMsgs]
  | cons txBz rest ih =>
    have step : ∀ a : List MsgEthereumTx, appendBlockEthMsgs dec a (txBz :: rest) =
        appendBlockEthMsgs dec (appendBlockEthMsgs dec a [txBz]) rest := by
      intro a; rfl
    rw [step acc, step [], ih (appendBlockEthMsgs dec acc [txBz]),
      ih (appendBlockEthMsgs dec [] [txBz])]
    cases hd : dec txBz with
    | error e => simp [appendBlockEthMsgs, hd]
    | ok tx =>
      have h1 : ∀ a : List MsgEthereumTx, appendBlockEthMsgs dec a [txBz] =
          appendEthMsgs a tx.GetMsgs := by
        intro a; simp [appendBlockEthMsgs, hd]
      rw [h1 acc, h1 [], appendEthMsgs_acc acc, List.append_assoc]

/-- The payload list of a block is the concatenation of the payload lists of
its parts. -/
theorem specBlockPayloads_append (dec : Bytes → Except Err Tx) (l₁ l₂ : List Bytes) :
    specBlockPayloads dec (l₁ ++ l₂) = specBlockPayloads dec l₁ ++ specBlockPayloads dec l₂ := by
  rw [← appendBlockEthMsgs_all, ← appendBlockEthMsgs_all, ← appendBlockEthMsgs_all,
    appendBlockEthMsgs_append, appendBlockEthMsgs_acc]

theorem specBlockPayloads_error (dec : Bytes → Except Err Tx) (txBz : Bytes) (e : Err)
    (h : dec txBz = .error e) : specBlockPayloads dec [txBz] = [] := by
  rw [← appendBlockEthMsgs_all]
  simp [appendBlockEthMsgs, h]

theorem specBlockPayloads_single (dec : Bytes → Except Err Tx) (txBz : Bytes)
    (m : MsgEthereumTx) (h : dec txBz = .ok ⟨[.eth m]⟩) :
    specBlockPayloads dec [txBz] = [m] := by
  rw [← appendBlockEthMsgs_all]
  simp [appendBlockEthMsgs, appendEthMsgs, h]

/-- An undecodable envelope contributes nothing: the payload list is that of the
block without it. -/
theorem specBlockPayloads_skip (dec : Bytes → Except Err Tx) (pre post : List Bytes)
    (bad : Bytes) (e : Err) (h : dec bad = .error e) :
    specBlockPayloads dec (pre ++ bad :: post) = specBlockPayloads dec (pre ++ post) := by
  have hcons : bad :: post = [bad] ++ post := rfl
  rw [hcons, specBlockPayloads_append, specBlockPayloads_append,
    specBlockPayloads_error dec bad e h, specBlockPayloads_append]
  simp

/-- When every envelope decodes to exactly one Ethereum-style message, the
payload list has one entry per envelope, the entry at position `i` being the
message of envelope `i`. -/
theorem specBlockPayloads_one_each (dec : Bytes → Except Err Tx) (l : List Bytes)
    (hone : ∀ txBz ∈ l, ∃ m, dec txBz = .ok ⟨[.eth m]⟩) :
    (specBlockPayloads dec l).length = l.length ∧
    ∀ (i : Nat) (txBz : Bytes) (m : MsgEthereumTx), l[i]? = some txBz →
      dec txBz = .ok ⟨[.eth m]⟩ → (specBlockPayloads dec l)[i]? = some m := by
  induction l with
  | nil =>
    refine ⟨by simp [specBlockPayloads], ?_⟩
    intro i txBz m hi
    simp at hi
  | cons a rest ih =>
    obtain ⟨ma, hma⟩ := hone a (List.mem_cons_self _ _)
    obtain ⟨ihlen, ihidx⟩ := ih (fun x hx => hone x (List.mem_cons_of_mem _ hx))
    have hcons : a :: rest = [a] ++ rest := rfl
    have hpay : specBlockPayloads dec (a :: rest) = ma :: specBlockPayloads dec rest := by
      rw [hcons, specBlockPayloads_append, specBlockPayloads_single dec a ma hma]
      rfl
    rw [hpay]
    refine ⟨by simp [ihlen], ?_⟩
    intro i txBz m hi hm
    cases i with
    | zero =>
      simp only [List.getElem?_cons_zero, Option.some.injEq] at hi
      subst hi
      rw [hma] at hm
      cases hm
      simp
    | succ j =>
      simp only [List.getElem?_cons_succ] at hi ⊢
      exact ihidx j txBz m hi hm

/-- Claim C13 as stated fails on the block `[A, undecodable, B (native), C]`:
exactly one of its four transactions fails to decode, and the payload list
sent is `[A, C]`, of length 2, not 3.  It also fails on a block of two
transactions, a three-message envelope with two payloads and an undecodable
one: the list has length 2, not 1. -/
theorem TraceBlock_decode_failure_length_counterexample :
    exBlockBad.Block.Txs.length = 4 ∧
    (exBlockBad.Block.Txs.filter (fun txBz =>
      match exDecoder txBz with | .ok _ => false | .error _ => true)) = [[9]] ∧
    (TraceBlock (exBackend ⟨5, 2, 0⟩ exBlockBad) 5 none exBlockBad).engineCalls.map
        (fun c => match c with | .TraceBlock _ r => r.Txs | _ => []) = [[msgA, msgC]] ∧
    [msgA, msgC].length ≠ exBlockBad.Block.Txs.length - 1 ∧
    (TraceBlock (exBackend ⟨5, 2, 0⟩ ⟨[171], ⟨5, 1700000000, [9], [[4], [9]]⟩⟩) 5 none
        ⟨[171], ⟨5, 1700000000, [9], [[4], [9]]⟩⟩).engineCalls.map
        (fun c => match c with | .TraceBlock _ r => r.Txs.length | _ => 0) = [2] := by
  decide

/-- Claim C13, amended.  For a block `pre ++ [bad] ++ post` of `N` transactions
in which `bad` fails to decode (in particular when it is the only one that
does), every request that `TraceBlock` sends carries the payload list of the
block without `bad`, that is the Ethereum-style messages of the remaining
envelopes in their order; when each remaining envelope decodes to exactly one
message and it is Ethereum-style, the list has length `N - 1` and its entry at
position `i` is the message of the `i`-th remaining transaction.  With a
network client and available consensus parameters such a request is sent. -/
theorem TraceBlock_one_decode_failure (b : Backend) (height : Int)
    (config : Option TraceConfig) (block : ResultBlock) (pre post : List Bytes) (bad : Bytes)
    (e : Err) (htxs : block.Block.Txs = pre ++ bad :: post)
    (hbad : b.TxDecoder bad = .error e) :
    (∀ h r, Call.TraceBlock h r ∈ (TraceBlock b height config block).calls →
      r.Txs = specBlockPayloads b.TxDecoder (pre ++ post) ∧
      ((∀ txBz ∈ pre ++ post, ∃ m, b.TxDecoder txBz = .ok ⟨[.eth m]⟩) →
        r.Txs.length = block.Block.Txs.length - 1 ∧
        ∀ (i : Nat) (txBz : Bytes) (m : MsgEthereumTx), (pre ++ post)[i]? = some txBz →
          b.TxDecoder txBz = .ok ⟨[.eth m]⟩ → r.Txs[i]? = some m)) ∧
    (∀ maxGas, b.isNetworkClient = true →
      b.ConsensusParams block.Block.Height = .ok maxGas →
      ∃ h r, (TraceBlock b height config block).engineCalls = [Call.TraceBlock h r] ∧
        r.Txs = specBlockPayloads b.TxDecoder (pre ++ post)) := by
  have hskip : specBlockPayloads b.TxDecoder block.Block.Txs =
      specBlockPayloads b.TxDecoder (pre ++ post) := by
    rw [htxs, specBlockPayloads_skip b.TxDecoder pre post bad e hbad]
  have hne : block.Block.Txs ≠ [] := by
    rw [htxs]; simp
  refine ⟨fun h r hmem => ?_, fun maxGas hn hcp => ?_⟩
  · have hr := (TraceBlock_traceBlock_mem b height config block h r hmem).2
    rw [hskip] at hr
    refine ⟨hr, fun hone => ?_⟩
    obtain ⟨hlen, hidx⟩ := specBlockPayloads_one_each b.TxDecoder (pre ++ post) hone
    rw [hr]
    refine ⟨?_, hidx⟩
    rw [hlen, htxs]
    simp
  · have hcalls := TraceBlock_engineCalls b height config block maxGas hne hn hcp
    rw [hskip] at hcalls
    exact ⟨_, _, hcalls, rfl⟩

/-- Claim C13, amended, on the block `[A, undecodable, C]`: the payload list is
`[A, C]`, of length 2 = 3 - 1. -/
theorem TraceBlock_one_decode_failure_witness :
    (exDecoder [9] = .error (.upstream "tx parse error") ∧
      (∀ txBz ∈ [[1]] ++ [[3]], ∃ tx, exDecoder txBz = .ok tx) ∧
      (∀ txBz ∈ [[1]] ++ [[3]], ∃ m, exDecoder txBz = .ok ⟨[.eth m]⟩)) ∧
    specBlockPayloads exDecoder ([[1]] ++ [[3]]) = [msgA, msgC] ∧
    (∀ h r, Call.TraceBlock h r ∈
        (TraceBlock (exBackend ⟨5, 2, 0⟩ ⟨[171], ⟨5, 1700000000, [9], [[1], [9], [3]]⟩⟩) 5 none
          ⟨[171], ⟨5, 1700000000, [9], [[1], [9], [3]]⟩⟩).calls →
      r.Txs.length = 3 - 1) ∧
    (∃ h r, (TraceBlock (exBackend ⟨5, 2, 0⟩ ⟨[171], ⟨5, 1700000000, [9], [[1], [9], [3]]⟩⟩) 5
        none ⟨[171], ⟨5, 1700000000, [9], [[1], [9], [3]]⟩⟩).engineCalls =
          [Call.TraceBlock h r] ∧
      r.Txs = specBlockPayloads exDecoder ([[1]] ++ [[3]])) :=
  have hone : ∀ txBz ∈ [[1]] ++ [[3]], ∃ m, exDecoder txBz = .ok ⟨[.eth m]⟩ := by
    intro txBz htx
    simp only [List.singleton_append, List.mem_cons, List.mem_singleton, List.mem_nil_iff,
      or_false] at htx
    rcases htx with rfl | rfl
    · exact ⟨msgA, rfl⟩
    · exact ⟨msgC, rfl⟩
  have hrest : ∀ txBz ∈ [[1]] ++ [[3]], ∃ tx, exDecoder txBz = .ok tx := by
    intro txBz htx
    obtain ⟨m, hm⟩ := hone txBz htx
    exact ⟨_, hm⟩
  have hmain := TraceBlock_one_decode_failure (exBackend ⟨5, 2, 0⟩
    ⟨[171], ⟨5, 1700000000, [9], [[1], [9], [3]]⟩⟩) 5 none
    ⟨[171], ⟨5, 1700000000, [9], [[1], [9], [3]]⟩⟩ [[1]] [[3]] [9] (.upstream "tx parse error")
    rfl rfl
  ⟨⟨rfl, hrest, hone⟩, by decide,
    fun h r hmem => ((hmain.1 h r hmem).2 hone).1,
    hmain.2 30000000 rfl rfl⟩

end Nibiru
